import Mathlib

/-!
Verification of the cell-centered boundary-value exchange engine
(`BoundaryValueCC` in `bvals_cc.cpp`) and the hydro flux-divergence kernel
(`Hydro::HydroDivFlux` in `calculate_divflux.cpp`) of the AthenaK-style
plasma code, shallowly embedded over rational-valued arrays.

Machine `Real` values are modelled by `ℚ`; the 5D Kokkos views are modelled
as total functions; the parallel kernels are modelled by their sequential
functional semantics (league-rank-major order, first writer found by a
bounded least-index search); MPI transfers are modelled by a per-(buffer,
block) request-active flag plus an arrival oracle consulted by the poll.
-/

/-- Task status values returned by the exchange and flux routines. -/
inductive TaskStatus
  | complete
  | incomplete
deriving DecidableEq

/-- Communication status of one boundary buffer for one MeshBlock. -/
inductive BoundaryCommStatus
  | waiting
  | received
deriving DecidableEq

/-- A 5D cell-centered array `a(m,v,k,j,i)` (block, variable, x3, x2, x1). -/
def Arr5 : Type := Nat → Nat → Int → Int → Int → ℚ

/-- The six loop bounds `il, iu, jl, ju, kl, ku` stored in a buffer's
    `index` view. -/
structure BufIndcs where
  il : Int
  iu : Int
  jl : Int
  ju : Int
  kl : Int
  ku : Int
deriving DecidableEq

/-- Number of cells covered in the x1 direction, `iu - il + 1`. -/
def niN (b : BufIndcs) : Nat := (b.iu - b.il + 1).toNat

/-- Number of cells covered in the x2 direction, `ju - jl + 1`. -/
def njN (b : BufIndcs) : Nat := (b.ju - b.jl + 1).toNat

/-- Number of cells covered in the x3 direction, `ku - kl + 1`. -/
def nkN (b : BufIndcs) : Nat := (b.ku - b.kl + 1).toNat

/-- Total number of cells in the index box of one buffer. -/
def bufSize (b : BufIndcs) : Nat := niN b * njN b * nkN b

/-- The flattened index `i-il + ni*(j-jl + nj*(k-kl))` used by both the pack
    and the unpack kernels, as an integer. -/
def flatI (b : BufIndcs) (i j k : Int) : Int :=
  (i - b.il) + (b.iu - b.il + 1) * ((j - b.jl) + (b.ju - b.jl + 1) * (k - b.kl))

/-- The flattened index as a natural number (cells inside the box always
    flatten to a nonnegative value). -/
def flatN (b : BufIndcs) (i j k : Int) : Nat := (flatI b i j k).toNat

/-- Membership of a cell `(i,j,k)` in a buffer's index box. -/
def inB (b : BufIndcs) (i j k : Int) : Prop :=
  b.il ≤ i ∧ i ≤ b.iu ∧ b.jl ≤ j ∧ j ≤ b.ju ∧ b.kl ≤ k ∧ k ≤ b.ku

instance (b : BufIndcs) (i j k : Int) : Decidable (inB b i j k) := by
  unfold inB; infer_instance

/-- Neighbor-table entry for one direction of one MeshBlock: global ID of the
    neighboring block (`-1` marks a physical boundary), its owning rank, and
    the index of the receive buffer on the neighbor that matches this
    direction's send buffer. -/
structure NeighborBlock where
  gid : Int
  rank : Int
  destn : Nat
deriving DecidableEq

/-- State of a `BoundaryValueCC` object together with the mesh data it reads:
    pack extents, rank, global-ID offset, neighbor table, the `index` views of
    all send and recv buffers, their `data` views (indexed buffer, block,
    variable, flattened cell), the per-block receive communication statuses,
    and the per-block receive-request active flags (an MPI request is active
    until its completion is first observed by `MPI_Test`). -/
structure BValCC where
  nmb : Nat
  nnghbr : Nat
  myRank : Int
  gids : Int
  nghbr : Nat → Nat → NeighborBlock
  sendIdx : Nat → BufIndcs
  recvIdx : Nat → BufIndcs
  sdata : Nat → Nat → Nat → Nat → ℚ
  rdata : Nat → Nat → Nat → Nat → ℚ
  rstat : Nat → Nat → BoundaryCommStatus
  rreq : Nat → Nat → Bool

/-- Least `p < n` with `P p = true`, scanning upward; models the first writer
    (in league-rank order) of a racy parallel write, and the first matching
    buffer found by the unpack loop. -/
def leastHit (P : Nat → Bool) : Nat → Option Nat
  | 0 => none
  | n+1 =>
    match leastHit P n with
    | some p => some p
    | none => if P n then some n else none

/-- The source-array value packed by pair `(m,n)` into flattened slot `f` of
    variable `v`: the pack kernel iterates the send box of buffer `n` in
    row-major order, so slot `f` holds the cell at offsets
    `(f % ni, f / ni % nj, f / (ni*nj))` from the low corner of the box. -/
def packValue (st : BValCC) (a : Arr5) (m n v f : Nat) : ℚ :=
  a m v
    ((st.sendIdx n).kl + (f / (niN (st.sendIdx n) * njN (st.sendIdx n)) : Nat))
    ((st.sendIdx n).jl + ((f / niN (st.sendIdx n)) % njN (st.sendIdx n) : Nat))
    ((st.sendIdx n).il + (f % niN (st.sendIdx n) : Nat))

/-- Whether league rank `p` (encoding the pair `m = p / nnghbr`,
    `n = p % nnghbr`) writes recv-buffer slot `(nn, mm, v, f)` in the pack
    kernel of `SendBuffersCC`: the kernel copies directly into the neighbor's
    recv buffer exactly when the neighbor's rank equals the local rank (it
    performs no physical-boundary check). -/
def recvWriter (st : BValCC) (nvar nn mm v f : Nat) (p : Nat) : Bool :=
  decide ((st.nghbr (p % st.nnghbr) (p / st.nnghbr)).rank = st.myRank) &&
  decide ((st.nghbr (p % st.nnghbr) (p / st.nnghbr)).destn = nn) &&
  decide ((st.nghbr (p % st.nnghbr) (p / st.nnghbr)).gid - st.gids =
    (mm : Int)) &&
  decide (v < nvar) &&
  decide (f < bufSize (st.sendIdx (p % st.nnghbr)))

/-- The recv-buffer `data` views after the pack kernel of `SendBuffersCC`. -/
def packRData (st : BValCC) (a : Arr5) (nvar : Nat) :
    Nat → Nat → Nat → Nat → ℚ :=
  fun nn mm v f =>
    match leastHit (recvWriter st nvar nn mm v f) (st.nmb * st.nnghbr) with
    | some p => packValue st a (p / st.nnghbr) (p % st.nnghbr) v f
    | none => st.rdata nn mm v f

/-- The send-buffer `data` views after the pack kernel of `SendBuffersCC`:
    pair `(m,n)` packs into its own send buffer exactly when the neighbor's
    rank differs from the local rank (again with no physical-boundary
    check). -/
def packSData (st : BValCC) (a : Arr5) (nvar : Nat) :
    Nat → Nat → Nat → Nat → ℚ :=
  fun n m v f =>
    if m < st.nmb ∧ n < st.nnghbr ∧ ¬((st.nghbr n m).rank = st.myRank) ∧
        v < nvar ∧ f < bufSize (st.sendIdx n) then
      packValue st a m n v f
    else st.sdata n m v f

/-- The pack kernel of `SendBuffersCC` (lines 189-237): fills recv buffers of
    same-rank neighbors and own send buffers for different-rank neighbors.
    It does not touch any communication status. -/
def packPhase (st : BValCC) (a : Arr5) (nvar : Nat) : BValCC :=
  { st with rdata := packRData st a nvar, sdata := packSData st a nvar }

/-- The transport loop of `SendBuffersCC` (lines 249-272): for every pair
    with a real neighbor (`gid ≥ 0`) on the same rank it marks the matching
    recv-buffer status of the destination block `received`; for
    different-rank neighbors it posts an `MPI_Isend`, which changes no local
    receive state. It does not touch any buffer data. -/
def transportPhase (st : BValCC) : BValCC :=
  { st with rstat := fun nn mm =>
      if ∃ m < st.nmb, ∃ n < st.nnghbr,
          0 ≤ (st.nghbr n m).gid ∧ (st.nghbr n m).rank = st.myRank ∧
          (st.nghbr n m).destn = nn ∧ (st.nghbr n m).gid - st.gids = (mm : Int)
      then BoundaryCommStatus.received
      else st.rstat nn mm }

/-- `BoundaryValueCC::SendBuffersCC`: pack kernel, then transport loop, then
    unconditionally return `complete`. -/
def SendBuffersCC (st : BValCC) (a : Arr5) (nvar : Nat) :
    TaskStatus × BValCC :=
  (TaskStatus.complete, transportPhase (packPhase st a nvar))

/-- The completion check of `RecvBuffersCC` (lines 300-318): some pair with a
    real neighbor is still incomplete, i.e. a same-rank pair whose status is
    `waiting`, or a different-rank pair whose request is still active and
    whose message has not arrived at this poll. -/
def pollIncomplete (st : BValCC) (arrived : Nat → Nat → Bool) : Prop :=
  ∃ m < st.nmb, ∃ n < st.nnghbr, 0 ≤ (st.nghbr n m).gid ∧
    (((st.nghbr n m).rank = st.myRank ∧
        st.rstat n m = BoundaryCommStatus.waiting) ∨
     (¬((st.nghbr n m).rank = st.myRank) ∧ st.rreq n m = true ∧
        arrived n m = false))

instance (st : BValCC) (arrived : Nat → Nat → Bool) :
    Decidable (pollIncomplete st arrived) := by
  unfold pollIncomplete; infer_instance

/-- The status updates performed by the completion check of `RecvBuffersCC`:
    for every real different-rank pair, `MPI_Test` succeeds when the request
    is already inactive or the message has arrived, in which case the status
    is set to `received`; a successful test on an active request deactivates
    it.  Same-rank pairs and buffer data are untouched. -/
def pollPhase (st : BValCC) (arrived : Nat → Nat → Bool) : BValCC :=
  { st with
    rstat := fun n m =>
      if m < st.nmb ∧ n < st.nnghbr ∧ 0 ≤ (st.nghbr n m).gid ∧
          ¬((st.nghbr n m).rank = st.myRank) ∧
          (st.rreq n m = false ∨ arrived n m = true)
      then BoundaryCommStatus.received
      else st.rstat n m,
    rreq := fun n m =>
      if m < st.nmb ∧ n < st.nnghbr ∧ 0 ≤ (st.nghbr n m).gid ∧
          ¬((st.nghbr n m).rank = st.myRank) ∧ arrived n m = true
      then false
      else st.rreq n m }

/-- The unpack kernel of `RecvBuffersCC` (lines 324-359): for every block and
    variable, every cell lying in some recv buffer's index box receives that
    buffer's data at the same flattened index used by the pack.  (The kernel
    loops over all buffers with no physical-boundary check; overlaps resolve
    to the first buffer in order.) -/
def unpackA (st : BValCC) (a : Arr5) (nvar : Nat) : Arr5 :=
  fun m v k j i =>
    if m < st.nmb ∧ v < nvar then
      match leastHit (fun n => decide (inB (st.recvIdx n) i j k)) st.nnghbr with
      | some n => st.rdata n m v (flatN (st.recvIdx n) i j k)
      | none => a m v k j i
    else a m v k j i

/-- `BoundaryValueCC::RecvBuffersCC`: run the completion check (which also
    records newly completed MPI transfers); if any required transfer is still
    incomplete return `incomplete` leaving the destination array untouched;
    otherwise unpack every buffer and return `complete`. -/
def RecvBuffersCC (st : BValCC) (a : Arr5) (nvar : Nat)
    (arrived : Nat → Nat → Bool) : TaskStatus × BValCC × Arr5 :=
  let st1 := pollPhase st arrived
  if pollIncomplete st arrived then (TaskStatus.incomplete, st1, a)
  else (TaskStatus.complete, st1, unpackA st1 a nvar)

/-- Send-buffer index bounds set by `BoundaryValueCC::AllocateBuffersCC`
    (lines 71-148): faces, edges and corners of the block interior, each of
    width `ng` in every direction normal to the boundary. -/
def sendIdxCC (is ie js je ks ke ng : Int) : Nat → BufIndcs := fun n =>
  match n with
  | 0 => ⟨is, is+ng-1, js, je, ks, ke⟩
  | 1 => ⟨ie-ng+1, ie, js, je, ks, ke⟩
  | 2 => ⟨is, ie, js, js+ng-1, ks, ke⟩
  | 3 => ⟨is, ie, je-ng+1, je, ks, ke⟩
  | 4 => ⟨is, is+ng-1, js, js+ng-1, ks, ke⟩
  | 5 => ⟨ie-ng+1, ie, js, js+ng-1, ks, ke⟩
  | 6 => ⟨is, is+ng-1, je-ng+1, je, ks, ke⟩
  | 7 => ⟨ie-ng+1, ie, je-ng+1, je, ks, ke⟩
  | 8 => ⟨is, ie, js, je, ks, ks+ng-1⟩
  | 9 => ⟨is, ie, js, je, ke-ng+1, ke⟩
  | 10 => ⟨is, is+ng-1, js, je, ks, ks+ng-1⟩
  | 11 => ⟨ie-ng+1, ie, js, je, ks, ks+ng-1⟩
  | 12 => ⟨is, is+ng-1, js, je, ke-ng+1, ke⟩
  | 13 => ⟨ie-ng+1, ie, js, je, ke-ng+1, ke⟩
  | 14 => ⟨is, ie, js, js+ng-1, ks, ks+ng-1⟩
  | 15 => ⟨is, ie, je-ng+1, je, ks, ks+ng-1⟩
  | 16 => ⟨is, ie, js, js+ng-1, ke-ng+1, ke⟩
  | 17 => ⟨is, ie, je-ng+1, je, ke-ng+1, ke⟩
  | 18 => ⟨is, is+ng-1, js, js+ng-1, ks, ks+ng-1⟩
  | 19 => ⟨ie-ng+1, ie, js, js+ng-1, ks, ks+ng-1⟩
  | 20 => ⟨is, is+ng-1, je-ng+1, je, ks, ks+ng-1⟩
  | 21 => ⟨ie-ng+1, ie, je-ng+1, je, ks, ks+ng-1⟩
  | 22 => ⟨is, is+ng-1, js, js+ng-1, ke-ng+1, ke⟩
  | 23 => ⟨ie-ng+1, ie, js, js+ng-1, ke-ng+1, ke⟩
  | 24 => ⟨is, is+ng-1, je-ng+1, je, ke-ng+1, ke⟩
  | 25 => ⟨ie-ng+1, ie, je-ng+1, je, ke-ng+1, ke⟩
  | _ => ⟨0, -1, 0, -1, 0, -1⟩

/-- Recv-buffer index bounds set by `BoundaryValueCC::AllocateBuffersCC`:
    the ghost-zone strips of width `ng` just outside the interior, matching
    the send boxes direction by direction. -/
def recvIdxCC (is ie js je ks ke ng : Int) : Nat → BufIndcs := fun n =>
  match n with
  | 0 => ⟨is-ng, is-1, js, je, ks, ke⟩
  | 1 => ⟨ie+1, ie+ng, js, je, ks, ke⟩
  | 2 => ⟨is, ie, js-ng, js-1, ks, ke⟩
  | 3 => ⟨is, ie, je+1, je+ng, ks, ke⟩
  | 4 => ⟨is-ng, is-1, js-ng, js-1, ks, ke⟩
  | 5 => ⟨ie+1, ie+ng, js-ng, js-1, ks, ke⟩
  | 6 => ⟨is-ng, is-1, je+1, je+ng, ks, ke⟩
  | 7 => ⟨ie+1, ie+ng, je+1, je+ng, ks, ke⟩
  | 8 => ⟨is, ie, js, je, ks-ng, ks-1⟩
  | 9 => ⟨is, ie, js, je, ke+1, ke+ng⟩
  | 10 => ⟨is-ng, is-1, js, je, ks-ng, ks-1⟩
  | 11 => ⟨ie+1, ie+ng, js, je, ks-ng, ks-1⟩
  | 12 => ⟨is-ng, is-1, js, je, ke+1, ke+ng⟩
  | 13 => ⟨ie+1, ie+ng, js, je, ke+1, ke+ng⟩
  | 14 => ⟨is, ie, js-ng, js-1, ks-ng, ks-1⟩
  | 15 => ⟨is, ie, je+1, je+ng, ks-ng, ks-1⟩
  | 16 => ⟨is, ie, js-ng, js-1, ke+1, ke+ng⟩
  | 17 => ⟨is, ie, je+1, je+ng, ke+1, ke+ng⟩
  | 18 => ⟨is-ng, is-1, js-ng, js-1, ks-ng, ks-1⟩
  | 19 => ⟨ie+1, ie+ng, js-ng, js-1, ks-ng, ks-1⟩
  | 20 => ⟨is-ng, is-1, je+1, je+ng, ks-ng, ks-1⟩
  | 21 => ⟨ie+1, ie+ng, je+1, je+ng, ks-ng, ks-1⟩
  | 22 => ⟨is-ng, is-1, js-ng, js-1, ke+1, ke+ng⟩
  | 23 => ⟨ie+1, ie+ng, js-ng, js-1, ke+1, ke+ng⟩
  | 24 => ⟨is-ng, is-1, je+1, je+ng, ke+1, ke+ng⟩
  | 25 => ⟨ie+1, ie+ng, je+1, je+ng, ke+1, ke+ng⟩
  | _ => ⟨0, -1, 0, -1, 0, -1⟩

/-- The block-interior index box `is..ie × js..je × ks..ke`. -/
def interiorBox (is ie js je ks ke : Int) : BufIndcs := ⟨is, ie, js, je, ks, ke⟩

/-- The interior extended by `ng` ghost cells on every side. -/
def extendedBox (is ie js je ks ke ng : Int) : BufIndcs :=
  ⟨is-ng, ie+ng, js-ng, je+ng, ks-ng, ke+ng⟩

/-- Reconstruction strategies; `undef` stands for any enum value not handled
    by the dispatch switches (their `default` branch). -/
inductive ReconstructionMethod
  | dc
  | plm
  | ppm
  | undef
deriving DecidableEq

/-- Riemann-solver strategies; `undef` stands for any enum value not handled
    by the dispatch switches (their `default` branch). -/
inductive RiemannSolver
  | advect
  | llf
  | hllc
  | roe
  | undef
deriving DecidableEq

/-- Index of the velocity component normal to x1 faces. -/
def IVX : Nat := 1

/-- Index of the velocity component normal to x2 faces. -/
def IVY : Nat := 2

/-- Index of the velocity component normal to x3 faces. -/
def IVZ : Nat := 3

/-- A 4D per-block array `q(n,k,j,i)` (variable, x3, x2, x1). -/
def Arr4 : Type := Nat → Int → Int → Int → ℚ

/-- Modelled from the spec: the reconstruction kernels (`DonorCellX1` ...
    `PiecewiseParabolicX3`) and the Riemann solvers (`Advect`, `LLF`, `HLLC`,
    `Roe`) are included from `reconstruct/*.cpp` and `hydro/rsolver/*.cpp`,
    which are not among the provided sources.  They are modelled as abstract
    kernels: a reconstruction call at pencil `(k,j)` produces, for each `i`
    of its range, a left state (written into its `wl` output) and a right
    state (written into its `wr` output) as arbitrary functions of `w0`; a
    Riemann solver produces, for each face `i` of its range, a flux vector
    that depends pointwise on the left and right state columns at `i` (so
    the in-place calls `Advect(..., wl_flx, wr, wl_flx)` of the source are
    well defined). -/
structure HydroKernels where
  dcX1L : Arr4 → Int → Int → Nat → Int → ℚ
  dcX1R : Arr4 → Int → Int → Nat → Int → ℚ
  plmX1L : Arr4 → Int → Int → Nat → Int → ℚ
  plmX1R : Arr4 → Int → Int → Nat → Int → ℚ
  ppmX1L : Arr4 → Int → Int → Nat → Int → ℚ
  ppmX1R : Arr4 → Int → Int → Nat → Int → ℚ
  dcX2L : Arr4 → Int → Int → Nat → Int → ℚ
  dcX2R : Arr4 → Int → Int → Nat → Int → ℚ
  plmX2L : Arr4 → Int → Int → Nat → Int → ℚ
  plmX2R : Arr4 → Int → Int → Nat → Int → ℚ
  ppmX2L : Arr4 → Int → Int → Nat → Int → ℚ
  ppmX2R : Arr4 → Int → Int → Nat → Int → ℚ
  dcX3L : Arr4 → Int → Int → Nat → Int → ℚ
  dcX3R : Arr4 → Int → Int → Nat → Int → ℚ
  plmX3L : Arr4 → Int → Int → Nat → Int → ℚ
  plmX3R : Arr4 → Int → Int → Nat → Int → ℚ
  ppmX3L : Arr4 → Int → Int → Nat → Int → ℚ
  ppmX3R : Arr4 → Int → Int → Nat → Int → ℚ
  advect : Nat → (Nat → ℚ) → (Nat → ℚ) → Nat → ℚ
  llf : Nat → (Nat → ℚ) → (Nat → ℚ) → Nat → ℚ
  hllc : Nat → (Nat → ℚ) → (Nat → ℚ) → Nat → ℚ
  roe : Nat → (Nat → ℚ) → (Nat → ℚ) → Nat → ℚ

/-- Grid data read from `pmb->mb_cells` and the mesh by `HydroDivFlux`:
    interior bounds, cell widths, dimensionality flags, variable count. -/
structure HydroGeom where
  is : Int
  ie : Int
  js : Int
  je : Int
  ks : Int
  ke : Int
  dx1 : ℚ
  dx2 : ℚ
  dx3 : ℚ
  nx2gt1 : Bool
  nx3gt1 : Bool
  nhydro : Nat

/-- Contents of the `wl` scratch array after the x1 reconstruction dispatch
    of `HydroDivFlux`.  The call range is `is-1 .. ie+1` and a reconstruction
    kernel writes `qL[i+1]`, hence indices `is .. ie+2` are written.  Scratch
    memory is modelled as zero-initialized, and the `default` branch of the
    switch leaves it untouched. -/
def x1wl (K : HydroKernels) (rm : ReconstructionMethod) (g : HydroGeom)
    (w0 : Arr4) (k j : Int) (n : Nat) (i : Int) : ℚ :=
  match rm with
  | .dc => if g.is ≤ i ∧ i ≤ g.ie + 2 then K.dcX1L w0 k j n i else 0
  | .plm => if g.is ≤ i ∧ i ≤ g.ie + 2 then K.plmX1L w0 k j n i else 0
  | .ppm => if g.is ≤ i ∧ i ≤ g.ie + 2 then K.ppmX1L w0 k j n i else 0
  | .undef => 0

/-- Contents of the `wr` scratch array after the x1 reconstruction dispatch
    (`qR[i]` over the call range `is-1 .. ie+1`). -/
def x1wr (K : HydroKernels) (rm : ReconstructionMethod) (g : HydroGeom)
    (w0 : Arr4) (k j : Int) (n : Nat) (i : Int) : ℚ :=
  match rm with
  | .dc => if g.is - 1 ≤ i ∧ i ≤ g.ie + 1 then K.dcX1R w0 k j n i else 0
  | .plm => if g.is - 1 ≤ i ∧ i ≤ g.ie + 1 then K.plmX1R w0 k j n i else 0
  | .ppm => if g.is - 1 ≤ i ∧ i ≤ g.ie + 1 then K.ppmX1R w0 k j n i else 0
  | .undef => 0

/-- Contents of the `uflux` scratch array after the x1 Riemann-solver
    dispatch of `HydroDivFlux` (faces `is .. ie+1`; zero where the `default`
    branch leaves the zero-initialized scratch untouched). -/
def x1flux (K : HydroKernels) (rm : ReconstructionMethod) (sm : RiemannSolver)
    (g : HydroGeom) (w0 : Arr4) (k j : Int) (n : Nat) (i : Int) : ℚ :=
  match sm with
  | .advect =>
      if g.is ≤ i ∧ i ≤ g.ie + 1 then
        K.advect IVX (fun m => x1wl K rm g w0 k j m i)
          (fun m => x1wr K rm g w0 k j m i) n
      else 0
  | .llf =>
      if g.is ≤ i ∧ i ≤ g.ie + 1 then
        K.llf IVX (fun m => x1wl K rm g w0 k j m i)
          (fun m => x1wr K rm g w0 k j m i) n
      else 0
  | .hllc =>
      if g.is ≤ i ∧ i ≤ g.ie + 1 then
        K.hllc IVX (fun m => x1wl K rm g w0 k j m i)
          (fun m => x1wr K rm g w0 k j m i) n
      else 0
  | .roe =>
      if g.is ≤ i ∧ i ≤ g.ie + 1 then
        K.roe IVX (fun m => x1wl K rm g w0 k j m i)
          (fun m => x1wr K rm g w0 k j m i) n
      else 0
  | .undef => 0

/-- The x1 sweep of `HydroDivFlux` (the `divflux_x1` kernel): for every
    interior cell and variable it overwrites `divf` with
    `(uflux(n,i+1) - uflux(n,i)) / dx1`; all other entries are untouched. -/
def sweepX1 (K : HydroKernels) (rm : ReconstructionMethod)
    (sm : RiemannSolver) (g : HydroGeom) (w0 : Arr4) (d : Arr4) : Arr4 :=
  fun n k j i =>
    if n < g.nhydro ∧ g.ks ≤ k ∧ k ≤ g.ke ∧ g.js ≤ j ∧ j ≤ g.je ∧
        g.is ≤ i ∧ i ≤ g.ie then
      (x1flux K rm sm g w0 k j n (i+1) - x1flux K rm sm g w0 k j n i) / g.dx1
    else d n k j i

/-- Left state written by the x2 reconstruction kernel called at `(k,j)`
    (the `qL[j+1]` output), per selected method; zero stands for the
    zero-initialized scratch the `default` branch leaves in place. -/
def reconX2Lval (K : HydroKernels) (rm : ReconstructionMethod) (w0 : Arr4)
    (k j : Int) (n : Nat) (i : Int) : ℚ :=
  match rm with
  | .dc => K.dcX2L w0 k j n i
  | .plm => K.plmX2L w0 k j n i
  | .ppm => K.ppmX2L w0 k j n i
  | .undef => 0

/-- Right state written by the x2 reconstruction kernel called at `(k,j)`
    (the `qR[j]` output). -/
def reconX2Rval (K : HydroKernels) (rm : ReconstructionMethod) (w0 : Arr4)
    (k j : Int) (n : Nat) (i : Int) : ℚ :=
  match rm with
  | .dc => K.dcX2R w0 k j n i
  | .plm => K.plmX2R w0 k j n i
  | .ppm => K.ppmX2R w0 k j n i
  | .undef => 0

/-- Left state written by the x3 reconstruction kernel called at `(k,j)`
    (the `qL[k+1]` output). -/
def reconX3Lval (K : HydroKernels) (rm : ReconstructionMethod) (w0 : Arr4)
    (k j : Int) (n : Nat) (i : Int) : ℚ :=
  match rm with
  | .dc => K.dcX3L w0 k j n i
  | .plm => K.plmX3L w0 k j n i
  | .ppm => K.ppmX3L w0 k j n i
  | .undef => 0

/-- Right state written by the x3 reconstruction kernel called at `(k,j)`
    (the `qR[k]` output). -/
def reconX3Rval (K : HydroKernels) (rm : ReconstructionMethod) (w0 : Arr4)
    (k j : Int) (n : Nat) (i : Int) : ℚ :=
  match rm with
  | .dc => K.dcX3R w0 k j n i
  | .plm => K.plmX3R w0 k j n i
  | .ppm => K.ppmX3R w0 k j n i
  | .undef => 0

/-- Effect of the x2 reconstruction dispatch on the `wl_jp1` scratch array:
    the selected kernel overwrites indices `is .. ie`; the `default` branch
    leaves the array as it was. -/
def x2reconWL (K : HydroKernels) (rm : ReconstructionMethod) (g : HydroGeom)
    (w0 : Arr4) (k j : Int) (old : Nat → Int → ℚ) : Nat → Int → ℚ :=
  match rm with
  | .undef => old
  | _ => fun n i =>
      if g.is ≤ i ∧ i ≤ g.ie then reconX2Lval K rm w0 k j n i else old n i

/-- Effect of the x2 reconstruction dispatch on the `wr` scratch array. -/
def x2reconWR (K : HydroKernels) (rm : ReconstructionMethod) (g : HydroGeom)
    (w0 : Arr4) (k j : Int) (old : Nat → Int → ℚ) : Nat → Int → ℚ :=
  match rm with
  | .undef => old
  | _ => fun n i =>
      if g.is ≤ i ∧ i ≤ g.ie then reconX2Rval K rm w0 k j n i else old n i

/-- Effect of the x3 reconstruction dispatch on the `wl_kp1` scratch array. -/
def x3reconWL (K : HydroKernels) (rm : ReconstructionMethod) (g : HydroGeom)
    (w0 : Arr4) (k j : Int) (old : Nat → Int → ℚ) : Nat → Int → ℚ :=
  match rm with
  | .undef => old
  | _ => fun n i =>
      if g.is ≤ i ∧ i ≤ g.ie then reconX3Lval K rm w0 k j n i else old n i

/-- Effect of the x3 reconstruction dispatch on the `wr` scratch array. -/
def x3reconWR (K : HydroKernels) (rm : ReconstructionMethod) (g : HydroGeom)
    (w0 : Arr4) (k j : Int) (old : Nat → Int → ℚ) : Nat → Int → ℚ :=
  match rm with
  | .undef => old
  | _ => fun n i =>
      if g.is ≤ i ∧ i ≤ g.ie then reconX3Rval K rm w0 k j n i else old n i

/-- Effect of the x2/x3 Riemann-solver dispatch, writing the flux in place
    into its `wl` argument over faces `is .. ie` (the in-place call of the
    source); the `default` branch leaves the array as it was. -/
def applyRS (K : HydroKernels) (sm : RiemannSolver) (ivx : Nat)
    (g : HydroGeom) (wl wr : Nat → Int → ℚ) : Nat → Int → ℚ :=
  match sm with
  | .advect => fun n i =>
      if g.is ≤ i ∧ i ≤ g.ie then
        K.advect ivx (fun m => wl m i) (fun m => wr m i) n
      else wl n i
  | .llf => fun n i =>
      if g.is ≤ i ∧ i ≤ g.ie then
        K.llf ivx (fun m => wl m i) (fun m => wr m i) n
      else wl n i
  | .hllc => fun n i =>
      if g.is ≤ i ∧ i ≤ g.ie then
        K.hllc ivx (fun m => wl m i) (fun m => wr m i) n
      else wl n i
  | .roe => fun n i =>
      if g.is ≤ i ∧ i ≤ g.ie then
        K.roe ivx (fun m => wl m i) (fun m => wr m i) n
      else wl n i
  | .undef => wl

/-- The numerical flux through x2 face `j` (between cells `j-1` and `j`)
    computed by the sliding-window x2 sweep: the solver combines the left
    state reconstructed at `j-1` with the right state reconstructed at `j`;
    with the `default` solver branch the array holding the retained left
    state passes through unchanged. -/
def faceFluxX2 (K : HydroKernels) (rm : ReconstructionMethod)
    (sm : RiemannSolver) (w0 : Arr4) (k j : Int) (n : Nat) (i : Int) : ℚ :=
  match sm with
  | .advect =>
      K.advect IVY (fun m => reconX2Lval K rm w0 k (j-1) m i)
        (fun m => reconX2Rval K rm w0 k j m i) n
  | .llf =>
      K.llf IVY (fun m => reconX2Lval K rm w0 k (j-1) m i)
        (fun m => reconX2Rval K rm w0 k j m i) n
  | .hllc =>
      K.hllc IVY (fun m => reconX2Lval K rm w0 k (j-1) m i)
        (fun m => reconX2Rval K rm w0 k j m i) n
  | .roe =>
      K.roe IVY (fun m => reconX2Lval K rm w0 k (j-1) m i)
        (fun m => reconX2Rval K rm w0 k j m i) n
  | .undef => reconX2Lval K rm w0 k (j-1) n i

/-- The numerical flux through x3 face `k` computed by the sliding-window
    x3 sweep. -/
def faceFluxX3 (K : HydroKernels) (rm : ReconstructionMethod)
    (sm : RiemannSolver) (w0 : Arr4) (k j : Int) (n : Nat) (i : Int) : ℚ :=
  match sm with
  | .advect =>
      K.advect IVZ (fun m => reconX3Lval K rm w0 (k-1) j m i)
        (fun m => reconX3Rval K rm w0 k j m i) n
  | .llf =>
      K.llf IVZ (fun m => reconX3Lval K rm w0 (k-1) j m i)
        (fun m => reconX3Rval K rm w0 k j m i) n
  | .hllc =>
      K.hllc IVZ (fun m => reconX3Lval K rm w0 (k-1) j m i)
        (fun m => reconX3Rval K rm w0 k j m i) n
  | .roe =>
      K.roe IVZ (fun m => reconX3Lval K rm w0 (k-1) j m i)
        (fun m => reconX3Rval K rm w0 k j m i) n
  | .undef => reconX3Lval K rm w0 (k-1) j n i

/-- The scratch arrays of one x2 (or x3) sweep team: the working flux array
    `wl_flx`, the right states `wr`, the next pencil's left states `wl_jp1`
    (`wl_kp1` for x3), the retained previous-face flux `uflux_jm1`
    (`uflux_km1`), and the team's view of `divf`.  `AthenaScratch2D`
    assignments (`wl_flx = wl_jp1`, `uflux_jm1 = wl_flx`) are modelled as
    value copies, following the spec's description of the sliding window
    (the `AthenaScratch2D` type lives in `athena.hpp`, not among the
    sources); scratch is modelled as zero-initialized. -/
structure SweepScr where
  wlflx : Nat → Int → ℚ
  wr : Nat → Int → ℚ
  wlnext : Nat → Int → ℚ
  ufprev : Nat → Int → ℚ
  dv : Arr4

/-- The `wl_flx` scratch array at the end of x2 iteration `j`: for
    `j > js-1` the retained left states `wl_jp1` are copied into `wl_flx`
    and the Riemann dispatch then overwrites it in place with the face-`j`
    flux (the copy and the flux stage share the same `j > js-1` guard in the
    source); for `j = js-1` the array is left as it was. -/
def x2flux (K : HydroKernels) (rm : ReconstructionMethod)
    (sm : RiemannSolver) (g : HydroGeom) (w0 : Arr4) (k : Int)
    (s : SweepScr) (j : Int) : Nat → Int → ℚ :=
  if g.js - 1 < j then
    applyRS K sm IVY g s.wlnext (x2reconWR K rm g w0 k j s.wr)
  else s.wlflx

/-- One iteration of the x2 sweep's `j` loop at pencil `(k,j)`: copy the
    retained left states, reconstruct `qR[j]` and `qL[j+1]`, compute the
    face-`j` flux in place (only for `j > js-1`), accumulate
    `(flux_j - flux_jm1) / dx2` into row `j-1` of `divf` (only for
    `j > js`), and roll the window forward (only for `js-1 < j < je+1`). -/
def x2step (K : HydroKernels) (rm : ReconstructionMethod)
    (sm : RiemannSolver) (g : HydroGeom) (w0 : Arr4) (k : Int)
    (s : SweepScr) (j : Int) : SweepScr where
  wlflx := x2flux K rm sm g w0 k s j
  wr := x2reconWR K rm g w0 k j s.wr
  wlnext := x2reconWL K rm g w0 k j s.wlnext
  ufprev :=
    if g.js - 1 < j ∧ j < g.je + 1 then x2flux K rm sm g w0 k s j
    else s.ufprev
  dv :=
    if g.js < j then
      fun n k2 j2 i =>
        if n < g.nhydro ∧ k2 = k ∧ j2 = j - 1 ∧ g.is ≤ i ∧ i ≤ g.ie then
          s.dv n k2 j2 i + (x2flux K rm sm g w0 k s j n i - s.ufprev n i) /
            g.dx2
        else s.dv n k2 j2 i
    else s.dv

/-- First `t` iterations of the x2 sweep's `j` loop (which runs `j` from
    `js-1` to `je+1`), starting from zero-initialized scratch and the
    incoming `divf`. -/
def x2iter (K : HydroKernels) (rm : ReconstructionMethod)
    (sm : RiemannSolver) (g : HydroGeom) (w0 : Arr4) (k : Int) (d : Arr4) :
    Nat → SweepScr
  | 0 => ⟨fun _ _ => 0, fun _ _ => 0, fun _ _ => 0, fun _ _ => 0, d⟩
  | t+1 => x2step K rm sm g w0 k (x2iter K rm sm g w0 k d t) (g.js - 1 + t)

/-- The x2 sweep of `HydroDivFlux` (the `divflux_x2` kernel): one team per
    plane `k ∈ ks..ke`, each running the full `j` loop. -/
def sweepX2 (K : HydroKernels) (rm : ReconstructionMethod)
    (sm : RiemannSolver) (g : HydroGeom) (w0 : Arr4) (d : Arr4) : Arr4 :=
  fun n k j i =>
    if g.ks ≤ k ∧ k ≤ g.ke then
      (x2iter K rm sm g w0 k d (g.je - g.js + 3).toNat).dv n k j i
    else d n k j i

/-- The `wl_flx` scratch array at the end of x3 iteration `k` (the x3
    analogue of `x2flux`). -/
def x3flux (K : HydroKernels) (rm : ReconstructionMethod)
    (sm : RiemannSolver) (g : HydroGeom) (w0 : Arr4) (j : Int)
    (s : SweepScr) (k : Int) : Nat → Int → ℚ :=
  if g.ks - 1 < k then
    applyRS K sm IVZ g s.wlnext (x3reconWR K rm g w0 k j s.wr)
  else s.wlflx

/-- One iteration of the x3 sweep's `k` loop at pencil `(k,j)` (note the
    source switches the order of the `k` and `j` loops for this sweep). -/
def x3step (K : HydroKernels) (rm : ReconstructionMethod)
    (sm : RiemannSolver) (g : HydroGeom) (w0 : Arr4) (j : Int)
    (s : SweepScr) (k : Int) : SweepScr where
  wlflx := x3flux K rm sm g w0 j s k
  wr := x3reconWR K rm g w0 k j s.wr
  wlnext := x3reconWL K rm g w0 k j s.wlnext
  ufprev :=
    if g.ks - 1 < k ∧ k < g.ke + 1 then x3flux K rm sm g w0 j s k
    else s.ufprev
  dv :=
    if g.ks < k then
      fun n k2 j2 i =>
        if n < g.nhydro ∧ k2 = k - 1 ∧ j2 = j ∧ g.is ≤ i ∧ i ≤ g.ie then
          s.dv n k2 j2 i + (x3flux K rm sm g w0 j s k n i - s.ufprev n i) /
            g.dx3
        else s.dv n k2 j2 i
    else s.dv

/-- First `t` iterations of the x3 sweep's `k` loop (which runs `k` from
    `ks-1` to `ke+1`). -/
def x3iter (K : HydroKernels) (rm : ReconstructionMethod)
    (sm : RiemannSolver) (g : HydroGeom) (w0 : Arr4) (j : Int) (d : Arr4) :
    Nat → SweepScr
  | 0 => ⟨fun _ _ => 0, fun _ _ => 0, fun _ _ => 0, fun _ _ => 0, d⟩
  | t+1 => x3step K rm sm g w0 j (x3iter K rm sm g w0 j d t) (g.ks - 1 + t)

/-- The x3 sweep of `HydroDivFlux` (the `divflux_x3` kernel): one team per
    pencil `j ∈ js..je`, each running the full `k` loop. -/
def sweepX3 (K : HydroKernels) (rm : ReconstructionMethod)
    (sm : RiemannSolver) (g : HydroGeom) (w0 : Arr4) (d : Arr4) : Arr4 :=
  fun n k j i =>
    if g.js ≤ j ∧ j ≤ g.je then
      (x3iter K rm sm g w0 j d (g.ke - g.ks + 3).toNat).dv n k j i
    else d n k j i

/-- `Hydro::HydroDivFlux`: the x1 sweep always runs; the routine returns
    `complete` right after it when the mesh is 1D (`!nx2gt1`), after the x2
    sweep when the mesh is 2D (`!nx3gt1`), and after all three sweeps
    otherwise. -/
def HydroDivFlux (K : HydroKernels) (rm : ReconstructionMethod)
    (sm : RiemannSolver) (g : HydroGeom) (w0 : Arr4) (d : Arr4) :
    TaskStatus × Arr4 :=
  let d1 := sweepX1 K rm sm g w0 d
  if g.nx2gt1 = false then (TaskStatus.complete, d1)
  else
    let d2 := sweepX2 K rm sm g w0 d1
    if g.nx3gt1 = false then (TaskStatus.complete, d2)
    else (TaskStatus.complete, sweepX3 K rm sm g w0 d2)

/-- A single-MeshBlock 1D pack (`ng = 1`, interior `i ∈ 1..2`) that is its
    own periodic neighbor on both x1 faces, with buffer geometry produced by
    `AllocateBuffersCC`; used to exercise the same-rank exchange path. -/
def wState : BValCC where
  nmb := 1
  nnghbr := 2
  myRank := 0
  gids := 0
  nghbr := fun n _ => if n = 0 then ⟨0, 0, 1⟩ else ⟨0, 0, 0⟩
  sendIdx := sendIdxCC 1 2 0 0 0 0 1
  recvIdx := recvIdxCC 1 2 0 0 0 0 1
  sdata := fun _ _ _ _ => 0
  rdata := fun _ _ _ _ => 0
  rstat := fun _ _ => BoundaryCommStatus.waiting
  rreq := fun _ _ => false

/-- Like `wState` but with every neighbor slot holding the physical-boundary
    sentinel `gid = -1` (rank `-1`, as the mesh writes for such slots). -/
def cState : BValCC where
  nmb := 1
  nnghbr := 2
  myRank := 0
  gids := 0
  nghbr := fun _ _ => ⟨-1, -1, 0⟩
  sendIdx := sendIdxCC 1 2 0 0 0 0 1
  recvIdx := recvIdxCC 1 2 0 0 0 0 1
  sdata := fun _ _ _ _ => 0
  rdata := fun _ _ _ _ => 0
  rstat := fun _ _ => BoundaryCommStatus.waiting
  rreq := fun _ _ => false

/-- A concrete source array: variable 0 of block 0 holds the x1 cell index. -/
def aW : Arr5 := fun m v k j i =>
  if m = 0 ∧ v = 0 ∧ k = 0 ∧ j = 0 then (i : ℚ) else 0

/-- An arrival oracle under which no MPI message has arrived. -/
def arrW : Nat → Nat → Bool := fun _ _ => false

/-- A reconstruction kernel that returns zero everywhere. -/
def zeroRecon : Arr4 → Int → Int → Nat → Int → ℚ := fun _ _ _ _ _ => 0

/-- A Riemann solver kernel that returns zero everywhere. -/
def zeroRS : Nat → (Nat → ℚ) → (Nat → ℚ) → Nat → ℚ := fun _ _ _ _ => 0

/-- The all-zero kernel family. -/
def KW : HydroKernels :=
  ⟨zeroRecon, zeroRecon, zeroRecon, zeroRecon, zeroRecon, zeroRecon,
   zeroRecon, zeroRecon, zeroRecon, zeroRecon, zeroRecon, zeroRecon,
   zeroRecon, zeroRecon, zeroRecon, zeroRecon, zeroRecon, zeroRecon,
   zeroRS, zeroRS, zeroRS, zeroRS⟩

/-- A kernel family whose x2 donor-cell left-state output varies with the
    pencil index `j` (any nonconstant reconstruction of a nonuniform field
    behaves like this). -/
def K4 : HydroKernels := { KW with dcX2L := fun _ _ j _ _ => (j : ℚ) }

/-- A 3D `2 x 2 x 2`-interior grid with unit cell widths. -/
def gW : HydroGeom := ⟨1, 2, 1, 2, 1, 2, 1, 1, 1, true, true, 1⟩

/-- A 2D grid with a single interior cell and unit cell widths. -/
def g4 : HydroGeom := ⟨1, 1, 1, 1, 0, 0, 1, 1, 1, true, false, 1⟩

/-- The zero primitive-state array. -/
def w0W : Arr4 := fun _ _ _ _ => 0

/-- The zero flux-divergence accumulator. -/
def d0W : Arr4 := fun _ _ _ _ => 0

/-! ## Helper lemmas -/

theorem leastHit_none_iff (P : Nat → Bool) (N : Nat) :
    leastHit P N = none ↔ ∀ q, q < N → P q = false := by
  induction N with
  | zero => simp [leastHit]
  | succ n ih =>
    constructor
    · intro h q hq
      unfold leastHit at h
      rcases hl : leastHit P n with _ | p
      · rw [hl] at h
        simp only [hl] at h
        by_cases hPn : P n
        · simp [hPn] at h
        · rcases Nat.lt_succ_iff_lt_or_eq.mp hq with h1 | h1
          · exact (ih.mp hl) q h1
          · subst h1; simpa using hPn
      · rw [hl] at h; simp at h
    · intro h
      unfold leastHit
      have hn : leastHit P n = none := ih.mpr fun q hq => h q (Nat.lt_succ_of_lt hq)
      rw [hn]
      simp [h n (Nat.lt_succ_self n)]

theorem leastHit_unique (P : Nat → Bool) (N p : Nat) (hp : P p = true)
    (hpN : p < N) (hu : ∀ q, q < N → P q = true → q = p) :
    leastHit P N = some p := by
  induction N with
  | zero => omega
  | succ n ih =>
    unfold leastHit
    rcases Nat.lt_succ_iff_lt_or_eq.mp hpN with h1 | h1
    · rw [ih h1 fun q hq hPq => hu q (Nat.lt_succ_of_lt hq) hPq]
    · subst h1
      have hnone : leastHit P p = none := by
        rw [leastHit_none_iff]
        intro q hq
        by_cases hPq : P q
        · exact absurd (hu q (Nat.lt_succ_of_lt hq) hPq) (Nat.ne_of_lt hq)
        · simpa using hPq
      rw [hnone]
      simp [hp]

theorem add_mul_mod_lt (a b c : Nat) (h : a < b) : (a + b * c) % b = a := by
  rw [Nat.add_mul_mod_self_left, Nat.mod_eq_of_lt h]

theorem add_mul_div_lt (a b c : Nat) (h : a < b) : (a + b * c) / b = c := by
  rw [Nat.add_mul_div_left _ _ (by omega : 0 < b), Nat.div_eq_of_lt h,
    Nat.zero_add]

theorem flat_lt (ni nj nk di dj dk : Nat) (hdi : di < ni) (hdj : dj < nj)
    (hdk : dk < nk) : di + ni * (dj + nj * dk) < ni * nj * nk := by
  have h1 : dj + nj * dk < nj * nk := by
    calc dj + nj * dk < nj + nj * dk := Nat.add_lt_add_right hdj _
    _ = nj * (1 + dk) := by ring
    _ ≤ nj * nk := Nat.mul_le_mul_left nj (by omega)
  calc di + ni * (dj + nj * dk) < ni + ni * (dj + nj * dk) :=
        Nat.add_lt_add_right hdi _
  _ = ni * (1 + (dj + nj * dk)) := by ring
  _ ≤ ni * (nj * nk) := Nat.mul_le_mul_left ni (by omega)
  _ = ni * nj * nk := by ring

theorem inB_mono (p1 p2 p3 p4 p5 p6 q1 q2 q3 q4 q5 q6 : Int)
    (h1 : q1 ≤ p1) (h2 : p2 ≤ q2) (h3 : q3 ≤ p3) (h4 : p4 ≤ q4)
    (h5 : q5 ≤ p5) (h6 : p6 ≤ q6) :
    ∀ i j k, inB ⟨p1, p2, p3, p4, p5, p6⟩ i j k →
      inB ⟨q1, q2, q3, q4, q5, q6⟩ i j k := by
  intro i j k hb
  unfold inB at hb ⊢
  dsimp only at hb ⊢
  omega

theorem inB_disjoint (p1 p2 p3 p4 p5 p6 q1 q2 q3 q4 q5 q6 : Int)
    (h : p2 < q1 ∨ q2 < p1 ∨ p4 < q3 ∨ q4 < p3 ∨ p6 < q5 ∨ q6 < p5) :
    ∀ i j k, inB ⟨p1, p2, p3, p4, p5, p6⟩ i j k →
      ¬ inB ⟨q1, q2, q3, q4, q5, q6⟩ i j k := by
  intro i j k hb hc
  unfold inB at hb hc
  dsimp only at hb hc
  omega

@[simp] theorem packPhase_nmb (st : BValCC) (a : Arr5) (nvar : Nat) :
    (packPhase st a nvar).nmb = st.nmb := rfl

@[simp] theorem packPhase_nnghbr (st : BValCC) (a : Arr5) (nvar : Nat) :
    (packPhase st a nvar).nnghbr = st.nnghbr := rfl

@[simp] theorem packPhase_myRank (st : BValCC) (a : Arr5) (nvar : Nat) :
    (packPhase st a nvar).myRank = st.myRank := rfl

@[simp] theorem packPhase_gids (st : BValCC) (a : Arr5) (nvar : Nat) :
    (packPhase st a nvar).gids = st.gids := rfl

@[simp] theorem packPhase_nghbr (st : BValCC) (a : Arr5) (nvar : Nat) :
    (packPhase st a nvar).nghbr = st.nghbr := rfl

@[simp] theorem packPhase_sendIdx (st : BValCC) (a : Arr5) (nvar : Nat) :
    (packPhase st a nvar).sendIdx = st.sendIdx := rfl

@[simp] theorem packPhase_recvIdx (st : BValCC) (a : Arr5) (nvar : Nat) :
    (packPhase st a nvar).recvIdx = st.recvIdx := rfl

@[simp] theorem packPhase_rstat (st : BValCC) (a : Arr5) (nvar : Nat) :
    (packPhase st a nvar).rstat = st.rstat := rfl

@[simp] theorem packPhase_rreq (st : BValCC) (a : Arr5) (nvar : Nat) :
    (packPhase st a nvar).rreq = st.rreq := rfl

@[simp] theorem packPhase_rdata (st : BValCC) (a : Arr5) (nvar : Nat) :
    (packPhase st a nvar).rdata = packRData st a nvar := rfl

@[simp] theorem packPhase_sdata (st : BValCC) (a : Arr5) (nvar : Nat) :
    (packPhase st a nvar).sdata = packSData st a nvar := rfl

@[simp] theorem transportPhase_nmb (st : BValCC) :
    (transportPhase st).nmb = st.nmb := rfl

@[simp] theorem transportPhase_nnghbr (st : BValCC) :
    (transportPhase st).nnghbr = st.nnghbr := rfl

@[simp] theorem transportPhase_myRank (st : BValCC) :
    (transportPhase st).myRank = st.myRank := rfl

@[simp] theorem transportPhase_gids (st : BValCC) :
    (transportPhase st).gids = st.gids := rfl

@[simp] theorem transportPhase_nghbr (st : BValCC) :
    (transportPhase st).nghbr = st.nghbr := rfl

@[simp] theorem transportPhase_sendIdx (st : BValCC) :
    (transportPhase st).sendIdx = st.sendIdx := rfl

@[simp] theorem transportPhase_recvIdx (st : BValCC) :
    (transportPhase st).recvIdx = st.recvIdx := rfl

@[simp] theorem transportPhase_sdata (st : BValCC) :
    (transportPhase st).sdata = st.sdata := rfl

@[simp] theorem transportPhase_rdata (st : BValCC) :
    (transportPhase st).rdata = st.rdata := rfl

@[simp] theorem transportPhase_rreq (st : BValCC) :
    (transportPhase st).rreq = st.rreq := rfl

theorem transportPhase_rstat (st : BValCC) (nn mm : Nat) :
    (transportPhase st).rstat nn mm =
      if ∃ m < st.nmb, ∃ n < st.nnghbr,
          0 ≤ (st.nghbr n m).gid ∧ (st.nghbr n m).rank = st.myRank ∧
          (st.nghbr n m).destn = nn ∧
          (st.nghbr n m).gid - st.gids = (mm : Int)
      then BoundaryCommStatus.received
      else st.rstat nn mm := rfl

@[simp] theorem pollPhase_nmb (st : BValCC) (arrived : Nat → Nat → Bool) :
    (pollPhase st arrived).nmb = st.nmb := rfl

@[simp] theorem pollPhase_nnghbr (st : BValCC) (arrived : Nat → Nat → Bool) :
    (pollPhase st arrived).nnghbr = st.nnghbr := rfl

@[simp] theorem pollPhase_myRank (st : BValCC) (arrived : Nat → Nat → Bool) :
    (pollPhase st arrived).myRank = st.myRank := rfl

@[simp] theorem pollPhase_gids (st : BValCC) (arrived : Nat → Nat → Bool) :
    (pollPhase st arrived).gids = st.gids := rfl

@[simp] theorem pollPhase_nghbr (st : BValCC) (arrived : Nat → Nat → Bool) :
    (pollPhase st arrived).nghbr = st.nghbr := rfl

@[simp] theorem pollPhase_sendIdx (st : BValCC) (arrived : Nat → Nat → Bool) :
    (pollPhase st arrived).sendIdx = st.sendIdx := rfl

@[simp] theorem pollPhase_recvIdx (st : BValCC) (arrived : Nat → Nat → Bool) :
    (pollPhase st arrived).recvIdx = st.recvIdx := rfl

@[simp] theorem pollPhase_sdata (st : BValCC) (arrived : Nat → Nat → Bool) :
    (pollPhase st arrived).sdata = st.sdata := rfl

@[simp] theorem pollPhase_rdata (st : BValCC) (arrived : Nat → Nat → Bool) :
    (pollPhase st arrived).rdata = st.rdata := rfl

theorem pollPhase_rstat (st : BValCC) (arrived : Nat → Nat → Bool)
    (n m : Nat) :
    (pollPhase st arrived).rstat n m =
      if m < st.nmb ∧ n < st.nnghbr ∧ 0 ≤ (st.nghbr n m).gid ∧
          ¬((st.nghbr n m).rank = st.myRank) ∧
          (st.rreq n m = false ∨ arrived n m = true)
      then BoundaryCommStatus.received
      else st.rstat n m := rfl

theorem pollPhase_rreq (st : BValCC) (arrived : Nat → Nat → Bool)
    (n m : Nat) :
    (pollPhase st arrived).rreq n m =
      if m < st.nmb ∧ n < st.nnghbr ∧ 0 ≤ (st.nghbr n m).gid ∧
          ¬((st.nghbr n m).rank = st.myRank) ∧ arrived n m = true
      then false
      else st.rreq n m := rfl

/-! ## Claims about the boundary exchange engine -/

/-- C2: if, when `RecvBuffersCC` is called, some (block, direction) pair with
    a real neighbor still has an incomplete transfer (same-rank status
    `waiting`, or an active unarrived MPI request), then the call returns
    `incomplete` and leaves every element of the destination array `a`
    unchanged: no unpacking happens at all. -/
theorem recv_incomplete_frame (st : BValCC) (a : Arr5) (nvar : Nat)
    (arrived : Nat → Nat → Bool) (h : pollIncomplete st arrived) :
    (RecvBuffersCC st a nvar arrived).1 = TaskStatus.incomplete ∧
    (RecvBuffersCC st a nvar arrived).2.2 = a := by
  unfold RecvBuffersCC
  rw [if_pos h]
  exact ⟨rfl, rfl⟩

/-- Witness for C2 at the concrete single-block pack `wState`, where the
    same-rank pair in direction 0 still has status `waiting`. -/
theorem recv_incomplete_frame_witness :
    pollIncomplete wState arrW ∧
    ((RecvBuffersCC wState aW 1 arrW).1 = TaskStatus.incomplete ∧
     (RecvBuffersCC wState aW 1 arrW).2.2 = aW) :=
  ⟨by decide, recv_incomplete_frame wState aW 1 arrW (by decide)⟩

/-- C6: `HydroDivFlux` always performs the x1 sweep and returns `complete`;
    it stops after the x1 sweep when the mesh is 1D (`nx2gt1` false), after
    the x2 sweep when the mesh is 2D (`nx3gt1` false), and performs all
    three sweeps otherwise. -/
theorem divflux_dimensional_dispatch (K : HydroKernels)
    (rm : ReconstructionMethod) (sm : RiemannSolver) (g : HydroGeom)
    (w0 d : Arr4) :
    HydroDivFlux K rm sm g w0 d =
      (TaskStatus.complete,
        if g.nx2gt1 = false then sweepX1 K rm sm g w0 d
        else if g.nx3gt1 = false then
          sweepX2 K rm sm g w0 (sweepX1 K rm sm g w0 d)
        else
          sweepX3 K rm sm g w0
            (sweepX2 K rm sm g w0 (sweepX1 K rm sm g w0 d))) := by
  by_cases h2 : g.nx2gt1 = false <;> by_cases h3 : g.nx3gt1 = false <;>
    simp [HydroDivFlux, h2, h3]

/-- C3 counterexample: in the all-physical-boundary pack `cState`
    (every neighbor slot has `gid = -1`), `SendBuffersCC` still packs the
    pair's source region into the send buffer — slot 0 of send buffer 0
    changes from `0` to the interior value `1` — so the claim that no pack
    or copy is performed for such a pair is false. -/
theorem send_packs_physical_boundary_pair :
    (SendBuffersCC cState aW 1).2.sdata 0 0 0 0 ≠ cState.sdata 0 0 0 0 := by
  decide

/-- C3 as amended: for a pair whose neighbor slot is the physical-boundary
    sentinel, the transport loop of `SendBuffersCC` performs no transport
    and flips no status (though the pack kernel still packs); in a pack
    where every neighbor slot is `-1`, `SendBuffersCC` and `RecvBuffersCC`
    perform zero transfers (no status or request change) and immediately
    return `complete`. -/
theorem physical_boundary_no_transport (st : BValCC) (a : Arr5) (nvar : Nat)
    (arrived : Nat → Nat → Bool)
    (hall : ∀ n, n < st.nnghbr → ∀ m, m < st.nmb → (st.nghbr n m).gid < 0) :
    (SendBuffersCC st a nvar).1 = TaskStatus.complete ∧
    (∀ nn mm, (SendBuffersCC st a nvar).2.rstat nn mm = st.rstat nn mm) ∧
    (RecvBuffersCC st a nvar arrived).1 = TaskStatus.complete ∧
    (∀ n m, (RecvBuffersCC st a nvar arrived).2.1.rstat n m = st.rstat n m ∧
            (RecvBuffersCC st a nvar arrived).2.1.rreq n m = st.rreq n m) := by
  have hpoll : ¬ pollIncomplete st arrived := by
    rintro ⟨m, hm, n, hn, hgid, -⟩
    exact absurd hgid (by simpa using hall n hn m hm)
  refine ⟨rfl, ?_, ?_, ?_⟩
  · intro nn mm
    show (transportPhase (packPhase st a nvar)).rstat nn mm = st.rstat nn mm
    rw [transportPhase_rstat]
    simp only [packPhase_nmb, packPhase_nnghbr, packPhase_nghbr,
      packPhase_myRank, packPhase_gids, packPhase_rstat]
    rw [if_neg]
    rintro ⟨m, hm, n, hn, hgid, -⟩
    exact absurd hgid (by simpa using hall n hn m hm)
  · unfold RecvBuffersCC
    rw [if_neg hpoll]
  · intro n m
    unfold RecvBuffersCC
    rw [if_neg hpoll]
    constructor
    · show (pollPhase st arrived).rstat n m = st.rstat n m
      rw [pollPhase_rstat, if_neg]
      rintro ⟨hm, hn, hgid, -⟩
      exact absurd hgid (by simpa using hall n hn m hm)
    · show (pollPhase st arrived).rreq n m = st.rreq n m
      rw [pollPhase_rreq, if_neg]
      rintro ⟨hm, hn, hgid, -⟩
      exact absurd hgid (by simpa using hall n hn m hm)

/-- Witness for the amended C3 at the all-physical-boundary pack. -/
theorem physical_boundary_no_transport_witness :
    (∀ n, n < cState.nnghbr → ∀ m, m < cState.nmb →
        (cState.nghbr n m).gid < 0) ∧
    (SendBuffersCC cState aW 1).1 = TaskStatus.complete ∧
    (RecvBuffersCC cState aW 1 arrW).1 = TaskStatus.complete :=
  ⟨by decide,
   (physical_boundary_no_transport cState aW 1 arrW (by decide)).1,
   (physical_boundary_no_transport cState aW 1 arrW (by decide)).2.2.1⟩

/-- C9: for a pair with a real same-rank neighbor, `SendBuffersCC` flips the
    destination block's receive status to `received` within the same call,
    and it is structured as the pack kernel followed by the transport loop:
    the pack writes no status, the transport loop writes no buffer data, so
    the status becomes `received` only after the copy into the neighbor's
    receive buffer is fully done. -/
theorem samerank_copy_before_flip (st : BValCC) (a : Arr5) (nvar : Nat)
    (m n nn mm : Nat)
    (hm : m < st.nmb) (hn : n < st.nnghbr)
    (hgid : 0 ≤ (st.nghbr n m).gid)
    (hrank : (st.nghbr n m).rank = st.myRank)
    (hnn : (st.nghbr n m).destn = nn)
    (hmm : (st.nghbr n m).gid - st.gids = (mm : Int)) :
    (SendBuffersCC st a nvar).2 = transportPhase (packPhase st a nvar) ∧
    (packPhase st a nvar).rstat = st.rstat ∧
    (transportPhase (packPhase st a nvar)).rdata =
      (packPhase st a nvar).rdata ∧
    (transportPhase (packPhase st a nvar)).sdata =
      (packPhase st a nvar).sdata ∧
    (SendBuffersCC st a nvar).2.rstat nn mm = BoundaryCommStatus.received := by
  refine ⟨rfl, rfl, rfl, rfl, ?_⟩
  show (transportPhase (packPhase st a nvar)).rstat nn mm = _
  rw [transportPhase_rstat]
  simp only [packPhase_nmb, packPhase_nnghbr, packPhase_nghbr,
    packPhase_myRank, packPhase_gids]
  rw [if_pos ⟨m, hm, n, hn, hgid, hrank, hnn, hmm⟩]

/-- Witness for C9 at `wState`: the pair `(0,0)` targets recv buffer 1 of
    block 0, whose status ends up `received`. -/
theorem samerank_copy_before_flip_witness :
    (wState.nghbr 0 0).rank = wState.myRank ∧
    (SendBuffersCC wState aW 1).2.rstat 1 0 = BoundaryCommStatus.received :=
  ⟨by decide,
   (samerank_copy_before_flip wState aW 1 0 0 1 0 (by decide) (by decide)
     (by decide) (by decide) (by decide) (by decide)).2.2.2.2⟩

/-- C10: when `RecvBuffersCC` returns `incomplete` it is not stateless: the
    destination array and buffer data are untouched, but every real
    cross-rank pair whose transfer has completed at this poll has its status
    flipped to `received` and its request deactivated before the return;
    statuses already `received` persist; and the outcome does not depend on
    the arrival oracle at pairs whose request is already inactive (a
    completed transfer is tested only until first observed). -/
theorem recv_incomplete_progress (st : BValCC) (a : Arr5) (nvar : Nat)
    (arrived : Nat → Nat → Bool)
    (h : (RecvBuffersCC st a nvar arrived).1 = TaskStatus.incomplete) :
    (RecvBuffersCC st a nvar arrived).2.2 = a ∧
    (RecvBuffersCC st a nvar arrived).2.1.rdata = st.rdata ∧
    (RecvBuffersCC st a nvar arrived).2.1.sdata = st.sdata ∧
    (∀ m, m < st.nmb → ∀ n, n < st.nnghbr → 0 ≤ (st.nghbr n m).gid →
      ¬((st.nghbr n m).rank = st.myRank) → st.rreq n m = true →
      arrived n m = true →
      (RecvBuffersCC st a nvar arrived).2.1.rstat n m =
        BoundaryCommStatus.received ∧
      (RecvBuffersCC st a nvar arrived).2.1.rreq n m = false) ∧
    (∀ n m, st.rstat n m = BoundaryCommStatus.received →
      (RecvBuffersCC st a nvar arrived).2.1.rstat n m =
        BoundaryCommStatus.received) ∧
    (∀ arrived2, (∀ n m, st.rreq n m = true → arrived2 n m = arrived n m) →
      RecvBuffersCC st a nvar arrived2 = RecvBuffersCC st a nvar arrived) := by
  have hpi : pollIncomplete st arrived := by
    by_cases hp : pollIncomplete st arrived
    · exact hp
    · exfalso
      unfold RecvBuffersCC at h
      rw [if_neg hp] at h
      exact absurd h (by simp)
  have hre : RecvBuffersCC st a nvar arrived =
      (TaskStatus.incomplete, pollPhase st arrived, a) := by
    unfold RecvBuffersCC
    rw [if_pos hpi]
  refine ⟨by rw [hre], by rw [hre]; exact pollPhase_rdata st arrived,
    by rw [hre]; exact pollPhase_sdata st arrived, ?_, ?_, ?_⟩
  · intro m hm n hn hgid hrank hreq harr
    rw [hre]
    constructor
    · show (pollPhase st arrived).rstat n m = BoundaryCommStatus.received
      rw [pollPhase_rstat, if_pos ⟨hm, hn, hgid, hrank, Or.inr harr⟩]
    · show (pollPhase st arrived).rreq n m = false
      rw [pollPhase_rreq, if_pos ⟨hm, hn, hgid, hrank, harr⟩]
  · intro n m hrec
    rw [hre]
    show (pollPhase st arrived).rstat n m = BoundaryCommStatus.received
    rw [pollPhase_rstat]
    split
    · rfl
    · exact hrec
  · intro arrived2 hagree
    have hiff : pollIncomplete st arrived2 ↔ pollIncomplete st arrived := by
      constructor
      · rintro ⟨m, hm, n, hn, hgid, hc⟩
        refine ⟨m, hm, n, hn, hgid, ?_⟩
        rcases hc with hc | ⟨h1, h2, h3⟩
        · exact Or.inl hc
        · exact Or.inr ⟨h1, h2, by rw [← hagree n m h2]; exact h3⟩
      · rintro ⟨m, hm, n, hn, hgid, hc⟩
        refine ⟨m, hm, n, hn, hgid, ?_⟩
        rcases hc with hc | ⟨h1, h2, h3⟩
        · exact Or.inl hc
        · exact Or.inr ⟨h1, h2, by rw [hagree n m h2]; exact h3⟩
    have hpp : pollPhase st arrived2 = pollPhase st arrived := by
      unfold pollPhase
      congr 1
      · funext n m
        by_cases hr : st.rreq n m = true
        · rw [hagree n m hr]
        · have hr0 : st.rreq n m = false := by
            cases hb : st.rreq n m
            · rfl
            · exact absurd hb hr
          simp [hr0]
      · funext n m
        by_cases hr : st.rreq n m = true
        · rw [hagree n m hr]
        · have hr0 : st.rreq n m = false := by
            cases hb : st.rreq n m
            · rfl
            · exact absurd hb hr
          simp [hr0]
    show (if pollIncomplete st arrived2 then
        (TaskStatus.incomplete, pollPhase st arrived2, a)
      else (TaskStatus.complete, pollPhase st arrived2,
        unpackA (pollPhase st arrived2) a nvar)) =
      (if pollIncomplete st arrived then
        (TaskStatus.incomplete, pollPhase st arrived, a)
      else (TaskStatus.complete, pollPhase st arrived,
        unpackA (pollPhase st arrived) a nvar))
    rw [hpp]
    exact if_congr hiff rfl rfl

/-- Witness for C10 at `wState` (one real same-rank pair still `waiting`, so
    the call returns `incomplete` and the array is untouched). -/
theorem recv_incomplete_progress_witness :
    (RecvBuffersCC wState aW 1 arrW).1 = TaskStatus.incomplete ∧
    (RecvBuffersCC wState aW 1 arrW).2.2 = aW :=
  ⟨by decide, (recv_incomplete_progress wState aW 1 arrW (by decide)).1⟩

/-- C7: calling `RecvBuffersCC` again after a call has returned `complete`
    (no intervening send or status reset) returns `complete` again — under
    any arrival oracle for the second poll — and re-delivers exactly the
    same destination-array values from the unchanged receive buffers. -/
theorem recv_after_complete_idempotent (st : BValCC) (a : Arr5) (nvar : Nat)
    (arrived arrived2 : Nat → Nat → Bool)
    (h : (RecvBuffersCC st a nvar arrived).1 = TaskStatus.complete) :
    (RecvBuffersCC (RecvBuffersCC st a nvar arrived).2.1
        (RecvBuffersCC st a nvar arrived).2.2 nvar arrived2).1 =
      TaskStatus.complete ∧
    (RecvBuffersCC (RecvBuffersCC st a nvar arrived).2.1
        (RecvBuffersCC st a nvar arrived).2.2 nvar arrived2).2.2 =
      (RecvBuffersCC st a nvar arrived).2.2 := by
  have hpi : ¬ pollIncomplete st arrived := by
    intro hp
    unfold RecvBuffersCC at h
    rw [if_pos hp] at h
    exact absurd h (by simp)
  have hre : RecvBuffersCC st a nvar arrived =
      (TaskStatus.complete, pollPhase st arrived,
        unpackA (pollPhase st arrived) a nvar) := by
    unfold RecvBuffersCC
    rw [if_neg hpi]
  rw [hre]
  have hpi2 : ¬ pollIncomplete (pollPhase st arrived) arrived2 := by
    rintro ⟨m, hm, n, hn, hgid, hc⟩
    simp only [pollPhase_nmb, pollPhase_nnghbr, pollPhase_nghbr,
      pollPhase_myRank] at hm hn hgid hc
    rcases hc with ⟨hrank, hw⟩ | ⟨hrank, hreqt, -⟩
    · rw [pollPhase_rstat] at hw
      have hcnd : ¬ (m < st.nmb ∧ n < st.nnghbr ∧ 0 ≤ (st.nghbr n m).gid ∧
          ¬((st.nghbr n m).rank = st.myRank) ∧
          (st.rreq n m = false ∨ arrived n m = true)) := by
        rintro ⟨-, -, -, hnr, -⟩
        exact hnr hrank
      rw [if_neg hcnd] at hw
      exact hpi ⟨m, hm, n, hn, hgid, Or.inl ⟨hrank, hw⟩⟩
    · rw [pollPhase_rreq] at hreqt
      by_cases hcnd : m < st.nmb ∧ n < st.nnghbr ∧ 0 ≤ (st.nghbr n m).gid ∧
          ¬((st.nghbr n m).rank = st.myRank) ∧ arrived n m = true
      · rw [if_pos hcnd] at hreqt
        exact absurd hreqt (by simp)
      · rw [if_neg hcnd] at hreqt
        have harr : arrived n m = false := by
          cases hb : arrived n m
          · rfl
          · exact absurd ⟨hm, hn, hgid, hrank, hb⟩ hcnd
        exact hpi ⟨m, hm, n, hn, hgid, Or.inr ⟨hrank, hreqt, harr⟩⟩
  have hre2 : RecvBuffersCC (pollPhase st arrived)
      (unpackA (pollPhase st arrived) a nvar) nvar arrived2 =
      (TaskStatus.complete, pollPhase (pollPhase st arrived) arrived2,
        unpackA (pollPhase (pollPhase st arrived) arrived2)
          (unpackA (pollPhase st arrived) a nvar) nvar) := by
    unfold RecvBuffersCC
    rw [if_neg hpi2]
  rw [hre2]
  refine ⟨rfl, ?_⟩
  show unpackA (pollPhase (pollPhase st arrived) arrived2)
      (unpackA (pollPhase st arrived) a nvar) nvar =
    unpackA (pollPhase st arrived) a nvar
  have hsame : unpackA (pollPhase (pollPhase st arrived) arrived2)
      (unpackA (pollPhase st arrived) a nvar) nvar =
      unpackA (pollPhase st arrived)
        (unpackA (pollPhase st arrived) a nvar) nvar := rfl
  rw [hsame]
  funext m v k j i
  unfold unpackA
  by_cases hmv : m < (pollPhase st arrived).nmb ∧ v < nvar
  · rw [if_pos hmv, if_pos hmv]
    rcases hls : leastHit
        (fun n => decide (inB ((pollPhase st arrived).recvIdx n) i j k))
        (pollPhase st arrived).nnghbr with _ | n
    · rfl
    · rfl
  · rw [if_neg hmv]

/-- Witness for C7: after `SendBuffersCC` on `wState` the first
    `RecvBuffersCC` completes, and a second call completes again. -/
theorem recv_after_complete_idempotent_witness :
    (RecvBuffersCC (SendBuffersCC wState aW 1).2 aW 1 arrW).1 =
      TaskStatus.complete ∧
    (RecvBuffersCC (RecvBuffersCC (SendBuffersCC wState aW 1).2 aW 1
        arrW).2.1
      (RecvBuffersCC (SendBuffersCC wState aW 1).2 aW 1 arrW).2.2 1
        arrW).1 = TaskStatus.complete :=
  ⟨by decide,
   (recv_after_complete_idempotent (SendBuffersCC wState aW 1).2 aW 1 arrW
     arrW (by decide)).1⟩

/-- C8: for every buffer direction `n` set up by `AllocateBuffersCC`, the
    send box and the matching recv box have the same cell counts in every
    dimension, the send box lies inside the block interior, and the recv box
    lies entirely outside the interior within the ghost halo of width
    `ng`. -/
theorem buffer_geometry_congruent (is ie js je ks ke ng : Int) (n : Nat)
    (hn : n < 26) (hng : 1 ≤ ng) (h1 : ng ≤ ie - is + 1)
    (h2 : 2 ≤ n → ng ≤ je - js + 1) (h3 : 8 ≤ n → ng ≤ ke - ks + 1) :
    (niN (sendIdxCC is ie js je ks ke ng n) =
        niN (recvIdxCC is ie js je ks ke ng n) ∧
     njN (sendIdxCC is ie js je ks ke ng n) =
        njN (recvIdxCC is ie js je ks ke ng n) ∧
     nkN (sendIdxCC is ie js je ks ke ng n) =
        nkN (recvIdxCC is ie js je ks ke ng n)) ∧
    (∀ i j k, inB (sendIdxCC is ie js je ks ke ng n) i j k →
        inB (interiorBox is ie js je ks ke) i j k) ∧
    (∀ i j k, inB (recvIdxCC is ie js je ks ke ng n) i j k →
        ¬ inB (interiorBox is ie js je ks ke) i j k ∧
        inB (extendedBox is ie js je ks ke ng) i j k) := by
  interval_cases n <;>
    refine ⟨by simp only [sendIdxCC, recvIdxCC, niN, njN, nkN, and_true,
        true_and] <;> omega,
      fun i j k hb => ?_, fun i j k hb => ?_⟩ <;>
    simp only [sendIdxCC, recvIdxCC, interiorBox, extendedBox, inB]
      at hb ⊢ <;>
    omega

/-- Witness for C8 at a concrete 3D geometry (`ng = 2`, interior `2..7` in
    each direction), direction 4 (an x1x2 edge). -/
theorem buffer_geometry_congruent_witness :
    (1:Int) ≤ 2 ∧
    (∀ i j k, inB (recvIdxCC 2 7 2 7 2 7 2 4) i j k →
        ¬ inB (interiorBox 2 7 2 7 2 7) i j k ∧
        inB (extendedBox 2 7 2 7 2 7 2) i j k) :=
  ⟨by norm_num,
   (buffer_geometry_congruent 2 7 2 7 2 7 2 4 (by norm_num) (by norm_num)
     (by norm_num) (fun _ => by norm_num) (fun h => by omega)).2.2⟩

theorem inB_offset (b : BufIndcs) (di dj dk : Nat) (hdi : di < niN b)
    (hdj : dj < njN b) (hdk : dk < nkN b) :
    inB b (b.il + di) (b.jl + dj) (b.kl + dk) := by
  unfold niN at hdi
  unfold njN at hdj
  unfold nkN at hdk
  unfold inB
  refine ⟨by omega, by omega, by omega, by omega, by omega, by omega⟩

theorem flatN_offset (b : BufIndcs) (di dj dk : Nat) (hdi : di < niN b)
    (hdj : dj < njN b) (hdk : dk < nkN b) :
    flatN b (b.il + di) (b.jl + dj) (b.kl + dk) =
      di + niN b * (dj + njN b * dk) := by
  have hni : (b.iu - b.il + 1) = ((niN b : Nat) : Int) := by
    unfold niN at hdi ⊢
    omega
  have hnj : (b.ju - b.jl + 1) = ((njN b : Nat) : Int) := by
    unfold njN at hdj ⊢
    omega
  have h1 : flatI b (b.il + di) (b.jl + dj) (b.kl + dk) =
      ((di + niN b * (dj + njN b * dk) : Nat) : Int) := by
    unfold flatI
    rw [hni, hnj]
    push_cast
    ring
  unfold flatN
  rw [h1, Int.toNat_natCast]

theorem packValue_offset (st : BValCC) (a : Arr5) (m n v di dj dk : Nat)
    (hdi : di < niN (st.sendIdx n)) (hdj : dj < njN (st.sendIdx n))
    (hdk : dk < nkN (st.sendIdx n)) :
    packValue st a m n v
        (di + niN (st.sendIdx n) * (dj + njN (st.sendIdx n) * dk)) =
      a m v ((st.sendIdx n).kl + dk) ((st.sendIdx n).jl + dj)
        ((st.sendIdx n).il + di) := by
  unfold packValue
  have e1 : (di + niN (st.sendIdx n) * (dj + njN (st.sendIdx n) * dk)) %
      niN (st.sendIdx n) = di := add_mul_mod_lt _ _ _ hdi
  have e2 : (di + niN (st.sendIdx n) * (dj + njN (st.sendIdx n) * dk)) /
      niN (st.sendIdx n) = dj + njN (st.sendIdx n) * dk :=
    add_mul_div_lt _ _ _ hdi
  have e3 : (di + niN (st.sendIdx n) * (dj + njN (st.sendIdx n) * dk)) /
      (niN (st.sendIdx n) * njN (st.sendIdx n)) = dk := by
    rw [← Nat.div_div_eq_div_mul, e2, add_mul_div_lt _ _ _ hdj]
  have e4 : (di + niN (st.sendIdx n) * (dj + njN (st.sendIdx n) * dk)) /
      niN (st.sendIdx n) % njN (st.sendIdx n) = dj := by
    rw [e2, add_mul_mod_lt _ _ _ hdj]
  rw [e1, e3, e4]

theorem encode_div (m n N : Nat) (hn : n < N) : (m * N + n) / N = m := by
  rw [Nat.mul_comm, Nat.mul_add_div (by omega : 0 < N),
    Nat.div_eq_of_lt hn, Nat.add_zero]

theorem encode_mod (m n N : Nat) (hn : n < N) : (m * N + n) % N = n := by
  rw [Nat.mul_comm, Nat.mul_add_mod, Nat.mod_eq_of_lt hn]

theorem packRData_eq (st : BValCC) (a : Arr5) (nvar : Nat)
    (m n nn mm v f : Nat)
    (hm : m < st.nmb) (hn : n < st.nnghbr)
    (hrank : (st.nghbr n m).rank = st.myRank)
    (hnn : (st.nghbr n m).destn = nn)
    (hmm : (st.nghbr n m).gid - st.gids = (mm : Int))
    (hv : v < nvar) (hf : f < bufSize (st.sendIdx n))
    (huniq : ∀ m2, m2 < st.nmb → ∀ n2, n2 < st.nnghbr →
      (st.nghbr n2 m2).rank = st.myRank → (st.nghbr n2 m2).destn = nn →
      (st.nghbr n2 m2).gid - st.gids = (mm : Int) → m2 = m ∧ n2 = n) :
    packRData st a nvar nn mm v f = packValue st a m n v f := by
  have hN : 0 < st.nnghbr := by omega
  have hdiv : (m * st.nnghbr + n) / st.nnghbr = m := encode_div m n _ hn
  have hmod : (m * st.nnghbr + n) % st.nnghbr = n := encode_mod m n _ hn
  have hP : recvWriter st nvar nn mm v f (m * st.nnghbr + n) = true := by
    simp only [recvWriter, hdiv, hmod, Bool.and_eq_true, decide_eq_true_eq]
    exact ⟨⟨⟨⟨hrank, hnn⟩, hmm⟩, hv⟩, hf⟩
  have hbound : m * st.nnghbr + n < st.nmb * st.nnghbr := by
    calc m * st.nnghbr + n < m * st.nnghbr + st.nnghbr :=
          Nat.add_lt_add_left hn _
    _ = (m + 1) * st.nnghbr := by ring
    _ ≤ st.nmb * st.nnghbr := Nat.mul_le_mul_right _ (by omega)
  have hu : ∀ q, q < st.nmb * st.nnghbr →
      recvWriter st nvar nn mm v f q = true → q = m * st.nnghbr + n := by
    intro q hq hPq
    have hn2 : q % st.nnghbr < st.nnghbr := Nat.mod_lt q hN
    have hm2 : q / st.nnghbr < st.nmb := (Nat.div_lt_iff_lt_mul hN).mpr hq
    simp only [recvWriter, Bool.and_eq_true, decide_eq_true_eq] at hPq
    obtain ⟨⟨⟨⟨h1, h2⟩, h3⟩, h4⟩, h5⟩ := hPq
    obtain ⟨hm3, hn3⟩ := huniq (q / st.nnghbr) hm2 (q % st.nnghbr) hn2 h1 h2 h3
    calc q = st.nnghbr * (q / st.nnghbr) + q % st.nnghbr :=
          (Nat.div_add_mod q st.nnghbr).symm
    _ = m * st.nnghbr + n := by rw [hm3, hn3]; ring
  unfold packRData
  rw [leastHit_unique _ _ _ hP hbound hu]
  show packValue st a ((m * st.nnghbr + n) / st.nnghbr)
      ((m * st.nnghbr + n) % st.nnghbr) v f = packValue st a m n v f
  rw [hdiv, hmod]

/-- C1: for a (block, direction) pair with a real same-rank neighbor, after
    `SendBuffersCC` and a subsequent `RecvBuffersCC` that returns `complete`,
    every ghost cell of the receiving block's destination array equals the
    interior value of the sending block's matching source cell at the same
    offsets within the congruent boxes — the pack and the unpack use the
    same flattened index `i-il + ni*(j-jl + nj*(k-kl))`.  The uniqueness
    hypotheses say that no other pair targets the same (recv buffer, block)
    slot and no other recv box covers the ghost cell, which is how the
    allocated buffer geometry behaves. -/
theorem roundtrip_ghost_eq_source
    (st : BValCC) (a : Arr5) (nvar : Nat) (arrived : Nat → Nat → Bool)
    (m n nn mm v di dj dk : Nat)
    (hm : m < st.nmb) (hn : n < st.nnghbr)
    (hgid : 0 ≤ (st.nghbr n m).gid)
    (hrank : (st.nghbr n m).rank = st.myRank)
    (hnn : (st.nghbr n m).destn = nn) (hnnlt : nn < st.nnghbr)
    (hmm : (st.nghbr n m).gid - st.gids = (mm : Int)) (hmmlt : mm < st.nmb)
    (hv : v < nvar)
    (hci : niN (st.recvIdx nn) = niN (st.sendIdx n))
    (hcj : njN (st.recvIdx nn) = njN (st.sendIdx n))
    (hck : nkN (st.recvIdx nn) = nkN (st.sendIdx n))
    (hdi : di < niN (st.sendIdx n)) (hdj : dj < njN (st.sendIdx n))
    (hdk : dk < nkN (st.sendIdx n))
    (huniq : ∀ m2, m2 < st.nmb → ∀ n2, n2 < st.nnghbr →
      (st.nghbr n2 m2).rank = st.myRank → (st.nghbr n2 m2).destn = nn →
      (st.nghbr n2 m2).gid - st.gids = (mm : Int) → m2 = m ∧ n2 = n)
    (hcover : ∀ n2, n2 < st.nnghbr →
      inB (st.recvIdx n2) ((st.recvIdx nn).il + di) ((st.recvIdx nn).jl + dj)
        ((st.recvIdx nn).kl + dk) → n2 = nn)
    (hcomp : (RecvBuffersCC (SendBuffersCC st a nvar).2 a nvar arrived).1 =
      TaskStatus.complete) :
    (RecvBuffersCC (SendBuffersCC st a nvar).2 a nvar arrived).2.2 mm v
        ((st.recvIdx nn).kl + dk) ((st.recvIdx nn).jl + dj)
        ((st.recvIdx nn).il + di) =
      a m v ((st.sendIdx n).kl + dk) ((st.sendIdx n).jl + dj)
        ((st.sendIdx n).il + di) := by
  have hpi : ¬ pollIncomplete (SendBuffersCC st a nvar).2 arrived := by
    intro hp
    unfold RecvBuffersCC at hcomp
    rw [if_pos hp] at hcomp
    exact absurd hcomp (by simp)
  have hres : (RecvBuffersCC (SendBuffersCC st a nvar).2 a nvar arrived).2.2 =
      unpackA (pollPhase (SendBuffersCC st a nvar).2 arrived) a nvar := by
    unfold RecvBuffersCC
    rw [if_neg hpi]
  rw [hres]
  have hdi' : di < niN (st.recvIdx nn) := by rw [hci]; exact hdi
  have hdj' : dj < njN (st.recvIdx nn) := by rw [hcj]; exact hdj
  have hdk' : dk < nkN (st.recvIdx nn) := by rw [hck]; exact hdk
  have hls : leastHit
      (fun n2 => decide (inB
        ((pollPhase (SendBuffersCC st a nvar).2 arrived).recvIdx n2)
        ((st.recvIdx nn).il + di) ((st.recvIdx nn).jl + dj)
        ((st.recvIdx nn).kl + dk)))
      (pollPhase (SendBuffersCC st a nvar).2 arrived).nnghbr = some nn := by
    apply leastHit_unique
    · exact decide_eq_true (inB_offset (st.recvIdx nn) di dj dk hdi' hdj' hdk')
    · exact hnnlt
    · intro q hq hPq
      exact hcover q hq (of_decide_eq_true hPq)
  show unpackA (pollPhase (SendBuffersCC st a nvar).2 arrived) a nvar mm v
      ((st.recvIdx nn).kl + dk) ((st.recvIdx nn).jl + dj)
      ((st.recvIdx nn).il + di) = _
  unfold unpackA
  rw [if_pos ⟨hmmlt, hv⟩, hls]
  show packRData st a nvar nn mm v
      (flatN (st.recvIdx nn) ((st.recvIdx nn).il + di)
        ((st.recvIdx nn).jl + dj) ((st.recvIdx nn).kl + dk)) = _
  rw [flatN_offset (st.recvIdx nn) di dj dk hdi' hdj' hdk', hci, hcj]
  rw [packRData_eq st a nvar m n nn mm v _ hm hn hrank hnn hmm hv
    (by exact flat_lt _ _ _ _ _ _ hdi hdj hdk) huniq]
  exact packValue_offset st a m n v di dj dk hdi hdj hdk

/-- Witness for C1 at the periodic single-block pack `wState`: the right
    ghost cell `i = 3` of block 0 receives the left interior value at
    `i = 1` (offset `(0,0,0)` of direction 0's boxes). -/
theorem roundtrip_ghost_eq_source_witness :
    (RecvBuffersCC (SendBuffersCC wState aW 1).2 aW 1 arrW).1 =
      TaskStatus.complete ∧
    (RecvBuffersCC (SendBuffersCC wState aW 1).2 aW 1 arrW).2.2 0 0
        ((wState.recvIdx 1).kl + (0:Nat)) ((wState.recvIdx 1).jl + (0:Nat))
        ((wState.recvIdx 1).il + (0:Nat)) =
      aW 0 0 ((wState.sendIdx 0).kl + (0:Nat)) ((wState.sendIdx 0).jl +
        (0:Nat)) ((wState.sendIdx 0).il + (0:Nat)) :=
  ⟨by decide,
   roundtrip_ghost_eq_source wState aW 1 arrW 0 0 1 0 0 0 0 0 (by decide)
     (by decide) (by decide) (by decide) (by decide) (by decide) (by decide)
     (by decide) (by decide) (by decide) (by decide) (by decide) (by decide)
     (by decide) (by decide)
     (by
       intro m2 hm2 n2 hn2 h1 h2 h3
       simp only [wState] at hm2 hn2
       have hm0 : m2 = 0 := by omega
       subst hm0
       rcases (by omega : n2 = 0 ∨ n2 = 1) with h | h <;> subst h
       · exact ⟨rfl, rfl⟩
       · exact absurd h2 (by decide))
     (by
       intro n2 hn2 hin
       simp only [wState] at hn2
       rcases (by omega : n2 = 0 ∨ n2 = 1) with h | h <;> subst h
       · exact absurd hin (by decide)
       · rfl)
     (by decide)⟩

/-! ## Claims about the flux-divergence engine -/

theorem x2step_wlnext (K : HydroKernels) (rm : ReconstructionMethod)
    (sm : RiemannSolver) (g : HydroGeom) (w0 : Arr4) (k : Int)
    (s : SweepScr) (j : Int) :
    (x2step K rm sm g w0 k s j).wlnext = x2reconWL K rm g w0 k j s.wlnext :=
  rfl

theorem x2step_wr (K : HydroKernels) (rm : ReconstructionMethod)
    (sm : RiemannSolver) (g : HydroGeom) (w0 : Arr4) (k : Int)
    (s : SweepScr) (j : Int) :
    (x2step K rm sm g w0 k s j).wr = x2reconWR K rm g w0 k j s.wr := rfl

theorem x2step_ufprev (K : HydroKernels) (rm : ReconstructionMethod)
    (sm : RiemannSolver) (g : HydroGeom) (w0 : Arr4) (k : Int)
    (s : SweepScr) (j : Int) :
    (x2step K rm sm g w0 k s j).ufprev =
      if g.js - 1 < j ∧ j < g.je + 1 then x2flux K rm sm g w0 k s j
      else s.ufprev := rfl

theorem x2step_dv (K : HydroKernels) (rm : ReconstructionMethod)
    (sm : RiemannSolver) (g : HydroGeom) (w0 : Arr4) (k : Int)
    (s : SweepScr) (j : Int) :
    (x2step K rm sm g w0 k s j).dv =
      if g.js < j then
        (fun n k2 j2 i =>
          if n < g.nhydro ∧ k2 = k ∧ j2 = j - 1 ∧ g.is ≤ i ∧ i ≤ g.ie then
            s.dv n k2 j2 i + (x2flux K rm sm g w0 k s j n i - s.ufprev n i) /
              g.dx2
          else s.dv n k2 j2 i)
      else s.dv := rfl

theorem x3step_wlnext (K : HydroKernels) (rm : ReconstructionMethod)
    (sm : RiemannSolver) (g : HydroGeom) (w0 : Arr4) (j : Int)
    (s : SweepScr) (k : Int) :
    (x3step K rm sm g w0 j s k).wlnext = x3reconWL K rm g w0 k j s.wlnext :=
  rfl

theorem x3step_wr (K : HydroKernels) (rm : ReconstructionMethod)
    (sm : RiemannSolver) (g : HydroGeom) (w0 : Arr4) (j : Int)
    (s : SweepScr) (k : Int) :
    (x3step K rm sm g w0 j s k).wr = x3reconWR K rm g w0 k j s.wr := rfl

theorem x3step_ufprev (K : HydroKernels) (rm : ReconstructionMethod)
    (sm : RiemannSolver) (g : HydroGeom) (w0 : Arr4) (j : Int)
    (s : SweepScr) (k : Int) :
    (x3step K rm sm g w0 j s k).ufprev =
      if g.ks - 1 < k ∧ k < g.ke + 1 then x3flux K rm sm g w0 j s k
      else s.ufprev := rfl

theorem x3step_dv (K : HydroKernels) (rm : ReconstructionMethod)
    (sm : RiemannSolver) (g : HydroGeom) (w0 : Arr4) (j : Int)
    (s : SweepScr) (k : Int) :
    (x3step K rm sm g w0 j s k).dv =
      if g.ks < k then
        (fun n k2 j2 i =>
          if n < g.nhydro ∧ k2 = k - 1 ∧ j2 = j ∧ g.is ≤ i ∧ i ≤ g.ie then
            s.dv n k2 j2 i + (x3flux K rm sm g w0 j s k n i - s.ufprev n i) /
              g.dx3
          else s.dv n k2 j2 i)
      else s.dv := rfl

theorem x2reconWL_val (K : HydroKernels) (rm : ReconstructionMethod)
    (g : HydroGeom) (w0 : Arr4) (k j : Int) (old : Nat → Int → ℚ)
    (h : rm = ReconstructionMethod.undef →
      ∀ n i, g.is ≤ i → i ≤ g.ie → old n i = 0) :
    ∀ n i, g.is ≤ i → i ≤ g.ie →
      x2reconWL K rm g w0 k j old n i = reconX2Lval K rm w0 k j n i := by
  intro n i h1 h2
  cases rm with
  | undef => exact h rfl n i h1 h2
  | dc => simp only [x2reconWL]; rw [if_pos ⟨h1, h2⟩]
  | plm => simp only [x2reconWL]; rw [if_pos ⟨h1, h2⟩]
  | ppm => simp only [x2reconWL]; rw [if_pos ⟨h1, h2⟩]

theorem x2reconWR_val (K : HydroKernels) (rm : ReconstructionMethod)
    (g : HydroGeom) (w0 : Arr4) (k j : Int) (old : Nat → Int → ℚ)
    (h : rm = ReconstructionMethod.undef →
      ∀ n i, g.is ≤ i → i ≤ g.ie → old n i = 0) :
    ∀ n i, g.is ≤ i → i ≤ g.ie →
      x2reconWR K rm g w0 k j old n i = reconX2Rval K rm w0 k j n i := by
  intro n i h1 h2
  cases rm with
  | undef => exact h rfl n i h1 h2
  | dc => simp only [x2reconWR]; rw [if_pos ⟨h1, h2⟩]
  | plm => simp only [x2reconWR]; rw [if_pos ⟨h1, h2⟩]
  | ppm => simp only [x2reconWR]; rw [if_pos ⟨h1, h2⟩]

theorem x3reconWL_val (K : HydroKernels) (rm : ReconstructionMethod)
    (g : HydroGeom) (w0 : Arr4) (k j : Int) (old : Nat → Int → ℚ)
    (h : rm = ReconstructionMethod.undef →
      ∀ n i, g.is ≤ i → i ≤ g.ie → old n i = 0) :
    ∀ n i, g.is ≤ i → i ≤ g.ie →
      x3reconWL K rm g w0 k j old n i = reconX3Lval K rm w0 k j n i := by
  intro n i h1 h2
  cases rm with
  | undef => exact h rfl n i h1 h2
  | dc => simp only [x3reconWL]; rw [if_pos ⟨h1, h2⟩]
  | plm => simp only [x3reconWL]; rw [if_pos ⟨h1, h2⟩]
  | ppm => simp only [x3reconWL]; rw [if_pos ⟨h1, h2⟩]

theorem x3reconWR_val (K : HydroKernels) (rm : ReconstructionMethod)
    (g : HydroGeom) (w0 : Arr4) (k j : Int) (old : Nat → Int → ℚ)
    (h : rm = ReconstructionMethod.undef →
      ∀ n i, g.is ≤ i → i ≤ g.ie → old n i = 0) :
    ∀ n i, g.is ≤ i → i ≤ g.ie →
      x3reconWR K rm g w0 k j old n i = reconX3Rval K rm w0 k j n i := by
  intro n i h1 h2
  cases rm with
  | undef => exact h rfl n i h1 h2
  | dc => simp only [x3reconWR]; rw [if_pos ⟨h1, h2⟩]
  | plm => simp only [x3reconWR]; rw [if_pos ⟨h1, h2⟩]
  | ppm => simp only [x3reconWR]; rw [if_pos ⟨h1, h2⟩]

theorem applyRS_faceX2 (K : HydroKernels) (rm : ReconstructionMethod)
    (sm : RiemannSolver) (g : HydroGeom) (w0 : Arr4) (k j : Int)
    (wl wr : Nat → Int → ℚ)
    (hwl : ∀ n i, g.is ≤ i → i ≤ g.ie →
      wl n i = reconX2Lval K rm w0 k (j-1) n i)
    (hwr : ∀ n i, g.is ≤ i → i ≤ g.ie →
      wr n i = reconX2Rval K rm w0 k j n i) :
    ∀ n i, g.is ≤ i → i ≤ g.ie →
      applyRS K sm IVY g wl wr n i = faceFluxX2 K rm sm w0 k j n i := by
  intro n i h1 h2
  have hL : (fun m => wl m i) = fun m => reconX2Lval K rm w0 k (j-1) m i :=
    funext fun m => hwl m i h1 h2
  have hR : (fun m => wr m i) = fun m => reconX2Rval K rm w0 k j m i :=
    funext fun m => hwr m i h1 h2
  cases sm with
  | undef => simp only [applyRS, faceFluxX2]; exact hwl n i h1 h2
  | advect =>
      simp only [applyRS, faceFluxX2]
      rw [if_pos ⟨h1, h2⟩, hL, hR]
  | llf =>
      simp only [applyRS, faceFluxX2]
      rw [if_pos ⟨h1, h2⟩, hL, hR]
  | hllc =>
      simp only [applyRS, faceFluxX2]
      rw [if_pos ⟨h1, h2⟩, hL, hR]
  | roe =>
      simp only [applyRS, faceFluxX2]
      rw [if_pos ⟨h1, h2⟩, hL, hR]

theorem applyRS_faceX3 (K : HydroKernels) (rm : ReconstructionMethod)
    (sm : RiemannSolver) (g : HydroGeom) (w0 : Arr4) (k j : Int)
    (wl wr : Nat → Int → ℚ)
    (hwl : ∀ n i, g.is ≤ i → i ≤ g.ie →
      wl n i = reconX3Lval K rm w0 (k-1) j n i)
    (hwr : ∀ n i, g.is ≤ i → i ≤ g.ie →
      wr n i = reconX3Rval K rm w0 k j n i) :
    ∀ n i, g.is ≤ i → i ≤ g.ie →
      applyRS K sm IVZ g wl wr n i = faceFluxX3 K rm sm w0 k j n i := by
  intro n i h1 h2
  have hL : (fun m => wl m i) = fun m => reconX3Lval K rm w0 (k-1) j m i :=
    funext fun m => hwl m i h1 h2
  have hR : (fun m => wr m i) = fun m => reconX3Rval K rm w0 k j m i :=
    funext fun m => hwr m i h1 h2
  cases sm with
  | undef => simp only [applyRS, faceFluxX3]; exact hwl n i h1 h2
  | advect =>
      simp only [applyRS, faceFluxX3]
      rw [if_pos ⟨h1, h2⟩, hL, hR]
  | llf =>
      simp only [applyRS, faceFluxX3]
      rw [if_pos ⟨h1, h2⟩, hL, hR]
  | hllc =>
      simp only [applyRS, faceFluxX3]
      rw [if_pos ⟨h1, h2⟩, hL, hR]
  | roe =>
      simp only [applyRS, faceFluxX3]
      rw [if_pos ⟨h1, h2⟩, hL, hR]

theorem x2iter_inv (K : HydroKernels) (rm : ReconstructionMethod)
    (sm : RiemannSolver) (g : HydroGeom) (w0 : Arr4) (k : Int) (d : Arr4)
    (hje : g.js ≤ g.je) :
    ∀ t : Nat, 1 ≤ t → (t : Int) ≤ g.je - g.js + 3 →
    (∀ n i, g.is ≤ i → i ≤ g.ie →
      (x2iter K rm sm g w0 k d t).wlnext n i =
        reconX2Lval K rm w0 k (g.js - 2 + t) n i) ∧
    (∀ n i, g.is ≤ i → i ≤ g.ie →
      (x2iter K rm sm g w0 k d t).wr n i =
        reconX2Rval K rm w0 k (g.js - 2 + t) n i) ∧
    (2 ≤ t → ∀ n i, g.is ≤ i → i ≤ g.ie →
      (x2iter K rm sm g w0 k d t).ufprev n i =
        faceFluxX2 K rm sm w0 k (min (g.js - 2 + t) g.je) n i) ∧
    (∀ n k2 j2 i, (x2iter K rm sm g w0 k d t).dv n k2 j2 i =
      if n < g.nhydro ∧ k2 = k ∧ g.js ≤ j2 ∧ j2 ≤ g.js - 3 + t ∧
          g.is ≤ i ∧ i ≤ g.ie
      then d n k2 j2 i + (faceFluxX2 K rm sm w0 k (j2+1) n i -
        faceFluxX2 K rm sm w0 k j2 n i) / g.dx2
      else d n k2 j2 i) := by
  intro t
  induction t with
  | zero => intro h; exact absurd h (by omega)
  | succ t ih =>
    intro h1 hN
    simp only [x2iter]
    rcases Nat.eq_zero_or_pos t with ht0 | htpos
    · subst ht0
      have hguard : ¬ (g.js - 1 < g.js - 1 + ((0:Nat):Int)) := by
        push_cast
        omega
      refine ⟨?_, ?_, ?_, ?_⟩
      · intro n i hi1 hi2
        show x2reconWL K rm g w0 k (g.js - 1 + ((0:Nat):Int))
            (fun _ _ => (0:ℚ)) n i = _
        rw [x2reconWL_val K rm g w0 k _ _ (fun _ n' i' _ _ => rfl) n i hi1
          hi2]
        congr 1
        push_cast
        ring
      · intro n i hi1 hi2
        show x2reconWR K rm g w0 k (g.js - 1 + ((0:Nat):Int))
            (fun _ _ => (0:ℚ)) n i = _
        rw [x2reconWR_val K rm g w0 k _ _ (fun _ n' i' _ _ => rfl) n i hi1
          hi2]
        congr 1
        push_cast
        ring
      · intro h2t
        exact absurd h2t (by omega)
      · intro n k2 j2 i
        show (x2step K rm sm g w0 k (x2iter K rm sm g w0 k d 0)
            (g.js - 1 + ((0:Nat):Int))).dv n k2 j2 i = _
        rw [x2step_dv]
        have h0 : ¬ g.js < g.js - 1 + ((0:Nat):Int) := by push_cast; omega
        rw [if_neg h0]
        have hc1 : ¬ (n < g.nhydro ∧ k2 = k ∧ g.js ≤ j2 ∧
            j2 ≤ g.js - 3 + ((0+1 : Nat):Int) ∧ g.is ≤ i ∧ i ≤ g.ie) := by
          rintro ⟨-, -, c3, c4, -, -⟩
          push_cast at c4
          omega
        rw [if_neg hc1]
        rfl
    · have hIH := ih htpos (by push_cast at hN ⊢; omega)
      obtain ⟨ih1, ih2, ih3, ih4⟩ := hIH
      have hti : (1:Int) ≤ (t:Int) := by exact_mod_cast htpos
      have hjg : g.js - 1 < g.js - 1 + (t:Int) := by omega
      have hflux : ∀ n i, g.is ≤ i → i ≤ g.ie →
          x2flux K rm sm g w0 k (x2iter K rm sm g w0 k d t)
            (g.js - 1 + (t:Int)) n i =
          faceFluxX2 K rm sm w0 k (g.js - 1 + (t:Int)) n i := by
        intro n i hi1 hi2
        unfold x2flux
        rw [if_pos hjg]
        refine applyRS_faceX2 K rm sm g w0 k (g.js - 1 + (t:Int)) _ _ ?_ ?_
          n i hi1 hi2
        · intro n' i' hi1' hi2'
          rw [ih1 n' i' hi1' hi2']
          congr 1
          ring
        · exact x2reconWR_val K rm g w0 k _ _
            (fun hrm n' i' hi1' hi2' => by
              rw [ih2 n' i' hi1' hi2', hrm]
              rfl)
      refine ⟨?_, ?_, ?_, ?_⟩
      · intro n i hi1 hi2
        show x2reconWL K rm g w0 k (g.js - 1 + (t:Int))
            (x2iter K rm sm g w0 k d t).wlnext n i = _
        rw [x2reconWL_val K rm g w0 k _ _
          (fun hrm n' i' hi1' hi2' => by
            rw [ih1 n' i' hi1' hi2', hrm]
            rfl) n i hi1 hi2]
        congr 1
        push_cast
        ring
      · intro n i hi1 hi2
        show x2reconWR K rm g w0 k (g.js - 1 + (t:Int))
            (x2iter K rm sm g w0 k d t).wr n i = _
        rw [x2reconWR_val K rm g w0 k _ _
          (fun hrm n' i' hi1' hi2' => by
            rw [ih2 n' i' hi1' hi2', hrm]
            rfl) n i hi1 hi2]
        congr 1
        push_cast
        ring
      · intro h2t n i hi1 hi2
        show (if g.js - 1 < g.js - 1 + (t:Int) ∧
              g.js - 1 + (t:Int) < g.je + 1
            then x2flux K rm sm g w0 k (x2iter K rm sm g w0 k d t)
              (g.js - 1 + (t:Int))
            else (x2iter K rm sm g w0 k d t).ufprev) n i = _
        by_cases hlt : g.js - 1 + (t:Int) < g.je + 1
        · rw [if_pos ⟨hjg, hlt⟩, hflux n i hi1 hi2]
          congr 1
          push_cast
          omega
        · rw [if_neg (by rintro ⟨-, hb⟩; exact hlt hb)]
          have h2t' : 2 ≤ t := by omega
          rw [ih3 h2t' n i hi1 hi2]
          congr 1
          push_cast at hN ⊢
          omega
      · intro n k2 j2 i
        show (if g.js < g.js - 1 + (t:Int) then
              (fun n k2 j2 i =>
                if n < g.nhydro ∧ k2 = k ∧ j2 = g.js - 1 + (t:Int) - 1 ∧
                    g.is ≤ i ∧ i ≤ g.ie then
                  (x2iter K rm sm g w0 k d t).dv n k2 j2 i +
                    (x2flux K rm sm g w0 k (x2iter K rm sm g w0 k d t)
                      (g.js - 1 + (t:Int)) n i -
                     (x2iter K rm sm g w0 k d t).ufprev n i) / g.dx2
                else (x2iter K rm sm g w0 k d t).dv n k2 j2 i)
            else (x2iter K rm sm g w0 k d t).dv) n k2 j2 i = _
        by_cases hacc : g.js < g.js - 1 + (t:Int)
        · rw [if_pos hacc]
          by_cases hC : n < g.nhydro ∧ k2 = k ∧
              j2 = g.js - 1 + (t:Int) - 1 ∧ g.is ≤ i ∧ i ≤ g.ie
          · show (if n < g.nhydro ∧ k2 = k ∧
                j2 = g.js - 1 + (t:Int) - 1 ∧ g.is ≤ i ∧ i ≤ g.ie then _
              else _) = _
            rw [if_pos hC]
            obtain ⟨hn, hk2, hj2, hi1, hi2⟩ := hC
            rw [hflux n i hi1 hi2, ih3 (by omega) n i hi1 hi2,
              ih4 n k2 j2 i]
            rw [if_neg (by rintro ⟨-, -, -, c4, -, -⟩; omega)]
            rw [if_pos ⟨hn, hk2, by omega, by push_cast; omega, hi1, hi2⟩]
            rw [show min (g.js - 2 + (t:Int)) g.je = g.js - 2 + (t:Int) by
              push_cast at hN; omega]
            rw [hj2]
            rw [show g.js - 1 + (t:Int) - 1 + 1 = g.js - 1 + (t:Int) by ring,
              show g.js - 2 + (t:Int) = g.js - 1 + (t:Int) - 1 by ring]
          · show (if n < g.nhydro ∧ k2 = k ∧
                j2 = g.js - 1 + (t:Int) - 1 ∧ g.is ≤ i ∧ i ≤ g.ie then _
              else _) = _
            rw [if_neg hC, ih4 n k2 j2 i]
            by_cases hC2 : n < g.nhydro ∧ k2 = k ∧ g.js ≤ j2 ∧
                j2 ≤ g.js - 3 + (t:Int) ∧ g.is ≤ i ∧ i ≤ g.ie
            · rw [if_pos hC2]
              rw [if_pos ⟨hC2.1, hC2.2.1, hC2.2.2.1, by
                have := hC2.2.2.2.1
                push_cast
                omega, hC2.2.2.2.2.1, hC2.2.2.2.2.2⟩]
            · rw [if_neg hC2]
              rw [if_neg ?_]
              rintro ⟨c1, c2, c3, c4, c5, c6⟩
              by_cases hj2' : j2 ≤ g.js - 3 + (t:Int)
              · exact hC2 ⟨c1, c2, c3, hj2', c5, c6⟩
              · push_cast at c4
                exact hC ⟨c1, c2, by omega, c5, c6⟩
        · rw [if_neg hacc, ih4 n k2 j2 i]
          rw [if_neg (by rintro ⟨-, -, c3, c4, -, -⟩; omega)]
          rw [if_neg (by rintro ⟨-, -, c3, c4, -, -⟩; push_cast at c4; omega)]

theorem sweepX1_interior (K : HydroKernels) (rm : ReconstructionMethod)
    (sm : RiemannSolver) (g : HydroGeom) (w0 d : Arr4) (n : Nat)
    (k j i : Int) (hn : n < g.nhydro) (hk1 : g.ks ≤ k) (hk2 : k ≤ g.ke)
    (hj1 : g.js ≤ j) (hj2 : j ≤ g.je) (hi1 : g.is ≤ i) (hi2 : i ≤ g.ie) :
    sweepX1 K rm sm g w0 d n k j i =
      (x1flux K rm sm g w0 k j n (i+1) - x1flux K rm sm g w0 k j n i) /
        g.dx1 := by
  unfold sweepX1
  rw [if_pos ⟨hn, hk1, hk2, hj1, hj2, hi1, hi2⟩]

theorem sweepX1_frame (K : HydroKernels) (rm : ReconstructionMethod)
    (sm : RiemannSolver) (g : HydroGeom) (w0 d : Arr4) (n : Nat)
    (k j i : Int)
    (h : ¬ (n < g.nhydro ∧ g.ks ≤ k ∧ k ≤ g.ke ∧ g.js ≤ j ∧ j ≤ g.je ∧
        g.is ≤ i ∧ i ≤ g.ie)) :
    sweepX1 K rm sm g w0 d n k j i = d n k j i := by
  unfold sweepX1
  rw [if_neg h]

theorem sweepX2_interior (K : HydroKernels) (rm : ReconstructionMethod)
    (sm : RiemannSolver) (g : HydroGeom) (w0 d : Arr4) (n : Nat)
    (k j i : Int) (hn : n < g.nhydro) (hk1 : g.ks ≤ k) (hk2 : k ≤ g.ke)
    (hj1 : g.js ≤ j) (hj2 : j ≤ g.je) (hi1 : g.is ≤ i) (hi2 : i ≤ g.ie) :
    sweepX2 K rm sm g w0 d n k j i =
      d n k j i + (faceFluxX2 K rm sm w0 k (j+1) n i -
        faceFluxX2 K rm sm w0 k j n i) / g.dx2 := by
  have hje : g.js ≤ g.je := le_trans hj1 hj2
  obtain ⟨-, -, -, hdv⟩ := x2iter_inv K rm sm g w0 k d hje
    (g.je - g.js + 3).toNat (by omega) (by omega)
  unfold sweepX2
  rw [if_pos ⟨hk1, hk2⟩, hdv n k j i,
    if_pos ⟨hn, rfl, hj1, by omega, hi1, hi2⟩]

theorem sweepX2_frame (K : HydroKernels) (rm : ReconstructionMethod)
    (sm : RiemannSolver) (g : HydroGeom) (w0 d : Arr4) (n : Nat)
    (k j i : Int) (hje : g.js ≤ g.je)
    (h : ¬ (n < g.nhydro ∧ g.ks ≤ k ∧ k ≤ g.ke ∧ g.js ≤ j ∧ j ≤ g.je ∧
        g.is ≤ i ∧ i ≤ g.ie)) :
    sweepX2 K rm sm g w0 d n k j i = d n k j i := by
  unfold sweepX2
  by_cases hk : g.ks ≤ k ∧ k ≤ g.ke
  · rw [if_pos hk]
    obtain ⟨-, -, -, hdv⟩ := x2iter_inv K rm sm g w0 k d hje
      (g.je - g.js + 3).toNat (by omega) (by omega)
    rw [hdv n k j i, if_neg ?_]
    rintro ⟨c1, c2, c3, c4, c5, c6⟩
    exact h ⟨c1, hk.1, hk.2, c3, by omega, c5, c6⟩
  · rw [if_neg hk]

theorem x3iter_inv (K : HydroKernels) (rm : ReconstructionMethod)
    (sm : RiemannSolver) (g : HydroGeom) (w0 : Arr4) (j : Int) (d : Arr4)
    (hke : g.ks ≤ g.ke) :
    ∀ t : Nat, 1 ≤ t → (t : Int) ≤ g.ke - g.ks + 3 →
    (∀ n i, g.is ≤ i → i ≤ g.ie →
      (x3iter K rm sm g w0 j d t).wlnext n i =
        reconX3Lval K rm w0 (g.ks - 2 + t) j n i) ∧
    (∀ n i, g.is ≤ i → i ≤ g.ie →
      (x3iter K rm sm g w0 j d t).wr n i =
        reconX3Rval K rm w0 (g.ks - 2 + t) j n i) ∧
    (2 ≤ t → ∀ n i, g.is ≤ i → i ≤ g.ie →
      (x3iter K rm sm g w0 j d t).ufprev n i =
        faceFluxX3 K rm sm w0 (min (g.ks - 2 + t) g.ke) j n i) ∧
    (∀ n k2 j2 i, (x3iter K rm sm g w0 j d t).dv n k2 j2 i =
      if n < g.nhydro ∧ g.ks ≤ k2 ∧ k2 ≤ g.ks - 3 + t ∧ j2 = j ∧
          g.is ≤ i ∧ i ≤ g.ie
      then d n k2 j2 i + (faceFluxX3 K rm sm w0 (k2+1) j n i -
        faceFluxX3 K rm sm w0 k2 j n i) / g.dx3
      else d n k2 j2 i) := by
  intro t
  induction t with
  | zero => intro h; exact absurd h (by omega)
  | succ t ih =>
    intro h1 hN
    simp only [x3iter]
    rcases Nat.eq_zero_or_pos t with ht0 | htpos
    · subst ht0
      refine ⟨?_, ?_, ?_, ?_⟩
      · intro n i hi1 hi2
        show x3reconWL K rm g w0 (g.ks - 1 + ((0:Nat):Int)) j
            (fun _ _ => (0:ℚ)) n i = _
        rw [x3reconWL_val K rm g w0 _ j _ (fun _ n' i' _ _ => rfl) n i hi1
          hi2]
        congr 1
        push_cast
        ring
      · intro n i hi1 hi2
        show x3reconWR K rm g w0 (g.ks - 1 + ((0:Nat):Int)) j
            (fun _ _ => (0:ℚ)) n i = _
        rw [x3reconWR_val K rm g w0 _ j _ (fun _ n' i' _ _ => rfl) n i hi1
          hi2]
        congr 1
        push_cast
        ring
      · intro h2t
        exact absurd h2t (by omega)
      · intro n k2 j2 i
        show (x3step K rm sm g w0 j (x3iter K rm sm g w0 j d 0)
            (g.ks - 1 + ((0:Nat):Int))).dv n k2 j2 i = _
        rw [x3step_dv]
        have h0 : ¬ g.ks < g.ks - 1 + ((0:Nat):Int) := by push_cast; omega
        rw [if_neg h0]
        have hc1 : ¬ (n < g.nhydro ∧ g.ks ≤ k2 ∧
            k2 ≤ g.ks - 3 + ((0+1 : Nat):Int) ∧ j2 = j ∧ g.is ≤ i ∧
            i ≤ g.ie) := by
          rintro ⟨-, c2, c3, -, -, -⟩
          push_cast at c3
          omega
        rw [if_neg hc1]
        rfl
    · have hIH := ih htpos (by push_cast at hN ⊢; omega)
      obtain ⟨ih1, ih2, ih3, ih4⟩ := hIH
      have hti : (1:Int) ≤ (t:Int) := by exact_mod_cast htpos
      have hkg : g.ks - 1 < g.ks - 1 + (t:Int) := by omega
      have hflux : ∀ n i, g.is ≤ i → i ≤ g.ie →
          x3flux K rm sm g w0 j (x3iter K rm sm g w0 j d t)
            (g.ks - 1 + (t:Int)) n i =
          faceFluxX3 K rm sm w0 (g.ks - 1 + (t:Int)) j n i := by
        intro n i hi1 hi2
        unfold x3flux
        rw [if_pos hkg]
        refine applyRS_faceX3 K rm sm g w0 (g.ks - 1 + (t:Int)) j _ _ ?_ ?_
          n i hi1 hi2
        · intro n' i' hi1' hi2'
          rw [ih1 n' i' hi1' hi2']
          congr 1
          ring
        · exact x3reconWR_val K rm g w0 _ j _
            (fun hrm n' i' hi1' hi2' => by
              rw [ih2 n' i' hi1' hi2', hrm]
              rfl)
      refine ⟨?_, ?_, ?_, ?_⟩
      · intro n i hi1 hi2
        show x3reconWL K rm g w0 (g.ks - 1 + (t:Int)) j
            (x3iter K rm sm g w0 j d t).wlnext n i = _
        rw [x3reconWL_val K rm g w0 _ j _
          (fun hrm n' i' hi1' hi2' => by
            rw [ih1 n' i' hi1' hi2', hrm]
            rfl) n i hi1 hi2]
        congr 1
        push_cast
        ring
      · intro n i hi1 hi2
        show x3reconWR K rm g w0 (g.ks - 1 + (t:Int)) j
            (x3iter K rm sm g w0 j d t).wr n i = _
        rw [x3reconWR_val K rm g w0 _ j _
          (fun hrm n' i' hi1' hi2' => by
            rw [ih2 n' i' hi1' hi2', hrm]
            rfl) n i hi1 hi2]
        congr 1
        push_cast
        ring
      · intro h2t n i hi1 hi2
        show (if g.ks - 1 < g.ks - 1 + (t:Int) ∧
              g.ks - 1 + (t:Int) < g.ke + 1
            then x3flux K rm sm g w0 j (x3iter K rm sm g w0 j d t)
              (g.ks - 1 + (t:Int))
            else (x3iter K rm sm g w0 j d t).ufprev) n i = _
        by_cases hlt : g.ks - 1 + (t:Int) < g.ke + 1
        · rw [if_pos ⟨hkg, hlt⟩, hflux n i hi1 hi2]
          congr 1
          push_cast
          omega
        · rw [if_neg (by rintro ⟨-, hb⟩; exact hlt hb)]
          have h2t' : 2 ≤ t := by omega
          rw [ih3 h2t' n i hi1 hi2]
          congr 1
          push_cast at hN ⊢
          omega
      · intro n k2 j2 i
        show (if g.ks < g.ks - 1 + (t:Int) then
              (fun n k2 j2 i =>
                if n < g.nhydro ∧ k2 = g.ks - 1 + (t:Int) - 1 ∧ j2 = j ∧
                    g.is ≤ i ∧ i ≤ g.ie then
                  (x3iter K rm sm g w0 j d t).dv n k2 j2 i +
                    (x3flux K rm sm g w0 j (x3iter K rm sm g w0 j d t)
                      (g.ks - 1 + (t:Int)) n i -
                     (x3iter K rm sm g w0 j d t).ufprev n i) / g.dx3
                else (x3iter K rm sm g w0 j d t).dv n k2 j2 i)
            else (x3iter K rm sm g w0 j d t).dv) n k2 j2 i = _
        by_cases hacc : g.ks < g.ks - 1 + (t:Int)
        · rw [if_pos hacc]
          by_cases hC : n < g.nhydro ∧ k2 = g.ks - 1 + (t:Int) - 1 ∧
              j2 = j ∧ g.is ≤ i ∧ i ≤ g.ie
          · show (if n < g.nhydro ∧ k2 = g.ks - 1 + (t:Int) - 1 ∧
                j2 = j ∧ g.is ≤ i ∧ i ≤ g.ie then _
              else _) = _
            rw [if_pos hC]
            obtain ⟨hn, hk2, hj2, hi1, hi2⟩ := hC
            rw [hflux n i hi1 hi2, ih3 (by omega) n i hi1 hi2,
              ih4 n k2 j2 i]
            rw [if_neg (by rintro ⟨-, -, c3, -, -, -⟩; omega)]
            rw [if_pos ⟨hn, by omega, by push_cast; omega, hj2, hi1, hi2⟩]
            rw [show min (g.ks - 2 + (t:Int)) g.ke = g.ks - 2 + (t:Int) by
              push_cast at hN; omega]
            rw [hk2]
            rw [show g.ks - 1 + (t:Int) - 1 + 1 = g.ks - 1 + (t:Int) by ring,
              show g.ks - 2 + (t:Int) = g.ks - 1 + (t:Int) - 1 by ring]
          · show (if n < g.nhydro ∧ k2 = g.ks - 1 + (t:Int) - 1 ∧
                j2 = j ∧ g.is ≤ i ∧ i ≤ g.ie then _
              else _) = _
            rw [if_neg hC, ih4 n k2 j2 i]
            by_cases hC2 : n < g.nhydro ∧ g.ks ≤ k2 ∧
                k2 ≤ g.ks - 3 + (t:Int) ∧ j2 = j ∧ g.is ≤ i ∧ i ≤ g.ie
            · rw [if_pos hC2]
              rw [if_pos ⟨hC2.1, hC2.2.1, by
                have := hC2.2.2.1
                push_cast
                omega, hC2.2.2.2.1, hC2.2.2.2.2.1, hC2.2.2.2.2.2⟩]
            · rw [if_neg hC2]
              rw [if_neg ?_]
              rintro ⟨c1, c2, c3, c4, c5, c6⟩
              by_cases hk2' : k2 ≤ g.ks - 3 + (t:Int)
              · exact hC2 ⟨c1, c2, hk2', c4, c5, c6⟩
              · push_cast at c3
                exact hC ⟨c1, by omega, c4, c5, c6⟩
        · rw [if_neg hacc, ih4 n k2 j2 i]
          rw [if_neg (by rintro ⟨-, c2, c3, -, -, -⟩; omega)]
          have hcz : ¬ (n < g.nhydro ∧ g.ks ≤ k2 ∧
              k2 ≤ g.ks - 3 + ((t+1 : Nat):Int) ∧ j2 = j ∧ g.is ≤ i ∧
              i ≤ g.ie) := by
            rintro ⟨-, c2, c3, -, -, -⟩
            push_cast at c3
            omega
          rw [if_neg hcz]

theorem sweepX3_interior (K : HydroKernels) (rm : ReconstructionMethod)
    (sm : RiemannSolver) (g : HydroGeom) (w0 d : Arr4) (n : Nat)
    (k j i : Int) (hn : n < g.nhydro) (hk1 : g.ks ≤ k) (hk2 : k ≤ g.ke)
    (hj1 : g.js ≤ j) (hj2 : j ≤ g.je) (hi1 : g.is ≤ i) (hi2 : i ≤ g.ie) :
    sweepX3 K rm sm g w0 d n k j i =
      d n k j i + (faceFluxX3 K rm sm w0 (k+1) j n i -
        faceFluxX3 K rm sm w0 k j n i) / g.dx3 := by
  have hke : g.ks ≤ g.ke := le_trans hk1 hk2
  obtain ⟨-, -, -, hdv⟩ := x3iter_inv K rm sm g w0 j d hke
    (g.ke - g.ks + 3).toNat (by omega) (by omega)
  unfold sweepX3
  rw [if_pos ⟨hj1, hj2⟩, hdv n k j i,
    if_pos ⟨hn, hk1, by omega, rfl, hi1, hi2⟩]

theorem sweepX3_frame (K : HydroKernels) (rm : ReconstructionMethod)
    (sm : RiemannSolver) (g : HydroGeom) (w0 d : Arr4) (n : Nat)
    (k j i : Int) (hke : g.ks ≤ g.ke)
    (h : ¬ (n < g.nhydro ∧ g.ks ≤ k ∧ k ≤ g.ke ∧ g.js ≤ j ∧ j ≤ g.je ∧
        g.is ≤ i ∧ i ≤ g.ie)) :
    sweepX3 K rm sm g w0 d n k j i = d n k j i := by
  unfold sweepX3
  by_cases hj : g.js ≤ j ∧ j ≤ g.je
  · rw [if_pos hj]
    obtain ⟨-, -, -, hdv⟩ := x3iter_inv K rm sm g w0 j d hke
      (g.ke - g.ks + 3).toNat (by omega) (by omega)
    rw [hdv n k j i, if_neg ?_]
    rintro ⟨c1, c2, c3, c4, c5, c6⟩
    exact h ⟨c1, c2, by omega, hj.1, hj.2, c5, c6⟩
  · rw [if_neg hj]

theorem x1flux_undef_const (K : HydroKernels) (sm : RiemannSolver)
    (g : HydroGeom) (w0 : Arr4) (k j : Int) (n : Nat) (i i' : Int)
    (h : g.is ≤ i ∧ i ≤ g.ie + 1) (h' : g.is ≤ i' ∧ i' ≤ g.ie + 1) :
    x1flux K ReconstructionMethod.undef sm g w0 k j n i =
      x1flux K ReconstructionMethod.undef sm g w0 k j n i' := by
  cases sm with
  | undef => rfl
  | advect => simp only [x1flux]; rw [if_pos h, if_pos h']; rfl
  | llf => simp only [x1flux]; rw [if_pos h, if_pos h']; rfl
  | hllc => simp only [x1flux]; rw [if_pos h, if_pos h']; rfl
  | roe => simp only [x1flux]; rw [if_pos h, if_pos h']; rfl

theorem faceFluxX2_undef_const (K : HydroKernels) (sm : RiemannSolver)
    (w0 : Arr4) (k j j' : Int) (n : Nat) (i : Int) :
    faceFluxX2 K ReconstructionMethod.undef sm w0 k j n i =
      faceFluxX2 K ReconstructionMethod.undef sm w0 k j' n i := by
  cases sm <;> rfl

theorem faceFluxX3_undef_const (K : HydroKernels) (sm : RiemannSolver)
    (w0 : Arr4) (k k' j : Int) (n : Nat) (i : Int) :
    faceFluxX3 K ReconstructionMethod.undef sm w0 k j n i =
      faceFluxX3 K ReconstructionMethod.undef sm w0 k' j n i := by
  cases sm <;> rfl

/-- C5: for every interior cell and variable, the x1 sweep overwrites
    `divf(n,k,j,i)` with `(flux(i+1) - flux(i)) / dx1` (the result does not
    depend on the incoming `divf`), while the x2 and x3 sweeps add their
    face-flux differences divided by `dx2` and `dx3` into the same cells. -/
theorem divflux_difference_formula (K : HydroKernels)
    (rm : ReconstructionMethod) (sm : RiemannSolver) (g : HydroGeom)
    (w0 : Arr4) (n : Nat) (k j i : Int)
    (hn : n < g.nhydro) (hk1 : g.ks ≤ k) (hk2 : k ≤ g.ke)
    (hj1 : g.js ≤ j) (hj2 : j ≤ g.je) (hi1 : g.is ≤ i) (hi2 : i ≤ g.ie) :
    (∀ d : Arr4, sweepX1 K rm sm g w0 d n k j i =
      (x1flux K rm sm g w0 k j n (i+1) - x1flux K rm sm g w0 k j n i) /
        g.dx1) ∧
    (∀ d : Arr4, sweepX2 K rm sm g w0 d n k j i =
      d n k j i + (faceFluxX2 K rm sm w0 k (j+1) n i -
        faceFluxX2 K rm sm w0 k j n i) / g.dx2) ∧
    (∀ d : Arr4, sweepX3 K rm sm g w0 d n k j i =
      d n k j i + (faceFluxX3 K rm sm w0 (k+1) j n i -
        faceFluxX3 K rm sm w0 k j n i) / g.dx3) :=
  ⟨fun d => sweepX1_interior K rm sm g w0 d n k j i hn hk1 hk2 hj1 hj2 hi1
     hi2,
   fun d => sweepX2_interior K rm sm g w0 d n k j i hn hk1 hk2 hj1 hj2 hi1
     hi2,
   fun d => sweepX3_interior K rm sm g w0 d n k j i hn hk1 hk2 hj1 hj2 hi1
     hi2⟩

/-- Witness for C5 at a concrete 3D configuration. -/
theorem divflux_difference_formula_witness :
    (0:Nat) < gW.nhydro ∧
    sweepX2 KW ReconstructionMethod.dc RiemannSolver.advect gW w0W d0W
        0 1 1 1 =
      d0W 0 1 1 1 +
        (faceFluxX2 KW ReconstructionMethod.dc RiemannSolver.advect w0W 1 2
          0 1 -
         faceFluxX2 KW ReconstructionMethod.dc RiemannSolver.advect w0W 1 1
          0 1) / gW.dx2 :=
  ⟨by decide,
   (divflux_difference_formula KW ReconstructionMethod.dc
     RiemannSolver.advect gW w0W 0 1 1 1 (by decide) (by decide) (by decide)
     (by decide) (by decide) (by decide) (by decide)).2.1 d0W⟩

/-- C4 counterexample: with a valid donor-cell reconstruction, an unknown
    Riemann-solver enum, a 2D mesh, and a reconstruction kernel whose left
    state varies with the pencil index, `HydroDivFlux` writes a nonzero
    value into `divf`: the in-place x2 flux stage is skipped by the
    `default` branch, so the accumulation adds differences of reconstructed
    states instead of zero. -/
theorem unknown_rsolver_nonzero_divf :
    (HydroDivFlux K4 ReconstructionMethod.dc RiemannSolver.undef g4 w0W
      d0W).2 0 0 1 1 ≠ 0 := by
  have hsplit : HydroDivFlux K4 ReconstructionMethod.dc RiemannSolver.undef
      g4 w0W d0W =
      (TaskStatus.complete,
        sweepX2 K4 ReconstructionMethod.dc RiemannSolver.undef g4 w0W
          (sweepX1 K4 ReconstructionMethod.dc RiemannSolver.undef g4 w0W
            d0W)) := by
    simp [HydroDivFlux, g4]
  rw [hsplit]
  show sweepX2 K4 ReconstructionMethod.dc RiemannSolver.undef g4 w0W
      (sweepX1 K4 ReconstructionMethod.dc RiemannSolver.undef g4 w0W d0W)
      0 0 1 1 ≠ 0
  rw [sweepX2_interior K4 ReconstructionMethod.dc RiemannSolver.undef g4 w0W
    _ 0 0 1 1 (by decide) (by decide) (by decide) (by decide) (by decide)
    (by decide) (by decide)]
  rw [sweepX1_interior K4 ReconstructionMethod.dc RiemannSolver.undef g4 w0W
    d0W 0 0 1 1 (by decide) (by decide) (by decide) (by decide) (by decide)
    (by decide) (by decide)]
  norm_num [x1flux, faceFluxX2, reconX2Lval, K4, KW, g4, w0W, d0W]

/-- C4 as amended: if the configured reconstruction method is an
    unknown/default enum value, `HydroDivFlux` returns `complete`, writes
    exactly zero into every interior `divf` entry (the x1 sweep overwrites
    with zero and the x2/x3 sweeps add zero), and leaves every other entry
    unchanged — a degenerate output, not an error.  (As the counterexample
    shows, the original claim fails when only the Riemann solver is
    unknown.) -/
theorem unknown_recon_zero_divf (K : HydroKernels) (sm : RiemannSolver)
    (g : HydroGeom) (w0 d : Arr4) (n : Nat) (k j i : Int)
    (hn : n < g.nhydro) (hk1 : g.ks ≤ k) (hk2 : k ≤ g.ke)
    (hj1 : g.js ≤ j) (hj2 : j ≤ g.je) (hi1 : g.is ≤ i) (hi2 : i ≤ g.ie) :
    (HydroDivFlux K ReconstructionMethod.undef sm g w0 d).1 =
      TaskStatus.complete ∧
    (HydroDivFlux K ReconstructionMethod.undef sm g w0 d).2 n k j i = 0 ∧
    (∀ (n2 : Nat) (k2 j2 i2 : Int),
      ¬ (n2 < g.nhydro ∧ g.ks ≤ k2 ∧ k2 ≤ g.ke ∧ g.js ≤ j2 ∧ j2 ≤ g.je ∧
          g.is ≤ i2 ∧ i2 ≤ g.ie) →
      (HydroDivFlux K ReconstructionMethod.undef sm g w0 d).2 n2 k2 j2 i2 =
        d n2 k2 j2 i2) := by
  have hje : g.js ≤ g.je := le_trans hj1 hj2
  have hke : g.ks ≤ g.ke := le_trans hk1 hk2
  have hz1 : ∀ d' : Arr4,
      sweepX1 K ReconstructionMethod.undef sm g w0 d' n k j i = 0 := by
    intro d'
    rw [sweepX1_interior K _ sm g w0 d' n k j i hn hk1 hk2 hj1 hj2 hi1 hi2]
    rw [x1flux_undef_const K sm g w0 k j n (i+1) i ⟨by omega, by omega⟩
      ⟨by omega, by omega⟩]
    rw [sub_self, zero_div]
  have hz2 : ∀ d' : Arr4,
      sweepX2 K ReconstructionMethod.undef sm g w0 d' n k j i =
        d' n k j i := by
    intro d'
    rw [sweepX2_interior K _ sm g w0 d' n k j i hn hk1 hk2 hj1 hj2 hi1 hi2]
    rw [faceFluxX2_undef_const K sm w0 k (j+1) j n i, sub_self, zero_div,
      add_zero]
  have hz3 : ∀ d' : Arr4,
      sweepX3 K ReconstructionMethod.undef sm g w0 d' n k j i =
        d' n k j i := by
    intro d'
    rw [sweepX3_interior K _ sm g w0 d' n k j i hn hk1 hk2 hj1 hj2 hi1 hi2]
    rw [faceFluxX3_undef_const K sm w0 (k+1) k j n i, sub_self, zero_div,
      add_zero]
  cases hb2 : g.nx2gt1 with
  | false =>
    have hsplit : HydroDivFlux K ReconstructionMethod.undef sm g w0 d =
        (TaskStatus.complete,
          sweepX1 K ReconstructionMethod.undef sm g w0 d) := by
      simp [HydroDivFlux, hb2]
    refine ⟨by rw [hsplit], by rw [hsplit]; exact hz1 d, ?_⟩
    intro n2 k2 j2 i2 hni
    rw [hsplit]
    exact sweepX1_frame K _ sm g w0 d n2 k2 j2 i2 hni
  | true =>
    cases hb3 : g.nx3gt1 with
    | false =>
      have hsplit : HydroDivFlux K ReconstructionMethod.undef sm g w0 d =
          (TaskStatus.complete,
            sweepX2 K ReconstructionMethod.undef sm g w0
              (sweepX1 K ReconstructionMethod.undef sm g w0 d)) := by
        simp [HydroDivFlux, hb2, hb3]
      refine ⟨by rw [hsplit], ?_, ?_⟩
      · rw [hsplit]
        show sweepX2 K ReconstructionMethod.undef sm g w0
            (sweepX1 K ReconstructionMethod.undef sm g w0 d) n k j i = 0
        rw [hz2, hz1]
      · intro n2 k2 j2 i2 hni
        rw [hsplit]
        show sweepX2 K ReconstructionMethod.undef sm g w0
            (sweepX1 K ReconstructionMethod.undef sm g w0 d) n2 k2 j2 i2 =
          d n2 k2 j2 i2
        rw [sweepX2_frame K _ sm g w0 _ n2 k2 j2 i2 hje hni]
        exact sweepX1_frame K _ sm g w0 d n2 k2 j2 i2 hni
    | true =>
      have hsplit : HydroDivFlux K ReconstructionMethod.undef sm g w0 d =
          (TaskStatus.complete,
            sweepX3 K ReconstructionMethod.undef sm g w0
              (sweepX2 K ReconstructionMethod.undef sm g w0
                (sweepX1 K ReconstructionMethod.undef sm g w0 d))) := by
        simp [HydroDivFlux, hb2, hb3]
      refine ⟨by rw [hsplit], ?_, ?_⟩
      · rw [hsplit]
        show sweepX3 K ReconstructionMethod.undef sm g w0
            (sweepX2 K ReconstructionMethod.undef sm g w0
              (sweepX1 K ReconstructionMethod.undef sm g w0 d)) n k j i = 0
        rw [hz3, hz2, hz1]
      · intro n2 k2 j2 i2 hni
        rw [hsplit]
        show sweepX3 K ReconstructionMethod.undef sm g w0
            (sweepX2 K ReconstructionMethod.undef sm g w0
              (sweepX1 K ReconstructionMethod.undef sm g w0 d)) n2 k2 j2
            i2 = d n2 k2 j2 i2
        rw [sweepX3_frame K _ sm g w0 _ n2 k2 j2 i2 hke hni]
        rw [sweepX2_frame K _ sm g w0 _ n2 k2 j2 i2 hje hni]
        exact sweepX1_frame K _ sm g w0 d n2 k2 j2 i2 hni

/-- Witness for the amended C4 at a concrete 3D configuration. -/
theorem unknown_recon_zero_divf_witness :
    (0:Nat) < gW.nhydro ∧
    (HydroDivFlux KW ReconstructionMethod.undef RiemannSolver.advect gW w0W
      d0W).2 0 1 1 1 = 0 :=
  ⟨by decide,
   (unknown_recon_zero_divf KW RiemannSolver.advect gW w0W d0W 0 1 1 1
     (by decide) (by decide) (by decide) (by decide) (by decide) (by decide)
     (by decide)).2.1⟩
